import Mathlib

/-!
Verification development for the CPP repository (BuiltByMom/CPP).

The repository is a Web3 front-end.  We shallowly embed the pure logic of its
utility modules and the control flow of its transaction-handling functions:

* `src/nextjs/_utils/tools.addresses.ts` — address validation, EIP-55
  checksumming (`toAddress`, `toChecksumAddress`, `isAddress`, …) and
  `getAddressAndEns`.  Strings are modelled as `List Char`; the keccak-based
  case bits of viem's `getAddress` are an uninterpreted oracle
  `hash : List Char → Nat → Bool` (bit `i` tells whether nibble `i` of the
  keccak digest of the lowercased body is ≥ 8).  ENS lookups are
  uninterpreted oracles as well.
* `src/unnamed/part_005` — the `decodeAs*` decoder functions.
* `src/unnamed/part_004` — the `NETWORKS` constant.
* `src/nextjs/_contexts/WithChain.tsx` — the chain-selection logic of
  `ChainProvider`.
* `src/nextjs/_utils/handleTx.ts` and
  `src/nextjs/_utils/tools.transactions.ts` — the two `handleTx` variants
  (embedded as `handleTxH` and `handleTxT`, since Lean cannot reuse one name)
  and `Transaction.perform`.  The wagmi/viem calls (`switchChain`,
  `simulateContract`, `writeContract`, `waitForTransactionReceipt`) are
  oracles supplied through a `World` record; JavaScript exceptions are
  modelled with `Except`; the sequence of performed operations and UI status
  updates is recorded as a trace of `TxEvent`s (`.deferred` marks a status
  update scheduled through `setTimeout`).
-/

/-! ## Characters and hex helpers -/

/-- Is `c` one of the 22 hexadecimal digit characters accepted by the
`[0-9a-fA-F]` character classes of the source's regexes? -/
def isHexDigit (c : Char) : Bool :=
  match c with
  | '0' | '1' | '2' | '3' | '4' | '5' | '6' | '7' | '8' | '9' => true
  | 'A' | 'B' | 'C' | 'D' | 'E' | 'F' => true
  | 'a' | 'b' | 'c' | 'd' | 'e' | 'f' => true
  | _ => false

/-- Lower-case a hexadecimal digit (identity on everything else). -/
def hexLower (c : Char) : Char :=
  match c with
  | 'A' => 'a' | 'B' => 'b' | 'C' => 'c' | 'D' => 'd' | 'E' => 'e' | 'F' => 'f'
  | c => c

/-- Upper-case a hexadecimal digit (identity on everything else). -/
def hexUpper (c : Char) : Char :=
  match c with
  | 'a' => 'A' | 'b' => 'B' | 'c' => 'C' | 'd' => 'D' | 'e' => 'E' | 'f' => 'F'
  | c => c

/-- JavaScript `String.prototype.trim` whitespace (the characters relevant to
this model). -/
def isJsWS (c : Char) : Bool :=
  match c with
  | ' ' | '\t' | '\n' | '\r' => true
  | _ => false

/-- JavaScript `trim`: drop whitespace from both ends. -/
def trimChars (s : List Char) : List Char :=
  ((s.dropWhile isJsWS).reverse.dropWhile isJsWS).reverse

/-! ## Error objects, statuses, receipts -/

/-- Model of a JavaScript error value.  `isBase` is whether the value is an
`instanceof BaseError` (viem); `name`, `shortMessage` and `message` are the
fields the source inspects (absent string fields are modelled as `[]`,
matching their falsiness in `||` chains). -/
structure Err where
  isBase : Bool
  name : List Char
  shortMessage : List Char
  message : List Char
  deriving DecidableEq

def errorName : List Char := "Error".toList

/-- `new Error(msg)`. -/
def plainErr (msg : List Char) : Err := ⟨false, errorName, [], msg⟩

/-- `TTxStatus` from tools.transactions.ts. -/
structure TTxStatus where
  none : Bool
  pending : Bool
  success : Bool
  error : Bool
  errorMessage : List Char
  deriving DecidableEq

def defaultTxStatus : TTxStatus := ⟨true, false, false, false, []⟩
def errorTxStatus : TTxStatus := ⟨false, false, false, true, []⟩
def pendingTxStatus : TTxStatus := ⟨false, true, false, false, []⟩
def successTxStatus : TTxStatus := ⟨false, false, true, false, []⟩

/-- viem receipt status (`'success' | 'reverted'`). -/
inductive RStatus where
  | success
  | reverted
  deriving DecidableEq

/-- On-chain transaction receipt (the fields the source inspects). -/
structure TransactionReceipt where
  status : RStatus
  transactionHash : Nat
  deriving DecidableEq

/-- `TTxResponse` from tools.transactions.ts. -/
structure TTxResponse where
  isSuccessful : Bool
  receipt : Option TransactionReceipt
  error : Option Err
  deriving DecidableEq

/-! ## Address strings (tools.addresses.ts) -/

def zeroAddr : List Char := '0' :: 'x' :: List.replicate 40 '0'

def genesisStr : List Char := "GENESIS".toList

def ethRawStr : List Char := "0xeeeeeeeeeeeeeeeeeeeeeeeeeeeeeeeeeeeeeeee".toList

/-- viem's address shape check `^0x[0-9a-fA-F]{40}$` (used by `getAddress`,
with `strict: false`, before checksumming). -/
def isHexAddress40 (a : List Char) : Bool :=
  match a with
  | '0' :: 'x' :: body => body.length == 40 && body.all isHexDigit
  | _ => false

/-- Apply EIP-55 case bits to an (already lowercased) address body: bit `true`
upper-cases the corresponding character (a no-op on digits). -/
def applyCase : List Bool → List Char → List Char
  | b :: bs, c :: cs => (if b then hexUpper c else c) :: applyCase bs cs
  | _, cs => cs

/-- The case bits viem derives from the keccak digest of the lowercased body;
the digest itself is the uninterpreted oracle `hash`. -/
def hashBits (hash : List Char → Nat → Bool) (lower : List Char) : List Bool :=
  (List.range lower.length).map (hash lower)

/-- EIP-55 checksumming of a `0x…` string (viem `checksumAddress`): lowercase
the body, then upper-case the characters selected by the keccak case bits. -/
def checksumAddress (hash : List Char → Nat → Bool) (a : List Char) : List Char :=
  match a with
  | '0' :: 'x' :: body =>
    let lower := body.map hexLower
    '0' :: 'x' :: applyCase (hashBits hash lower) lower
  | other => other

/-- viem `getAddress`: throw `InvalidAddressError` (a `BaseError`) unless the
string is `0x` + 40 hex digits, otherwise return its EIP-55 checksummed
form. -/
def getAddressE (hash : List Char → Nat → Bool) (a : List Char) :
    Except Err (List Char) :=
  if isHexAddress40 a then .ok (checksumAddress hash a)
  else .error ⟨true, "InvalidAddressError".toList, "Invalid address".toList, "Invalid address".toList⟩

/-- The regex `/^0x([0-9a-f][0-9a-f])*$/i` shared by `isTAddress` and
`isAddress`: `0x` followed by an even number of hex digits. -/
def isTAddressStr (a : List Char) : Bool :=
  match a with
  | '0' :: 'x' :: body => body.all isHexDigit && body.length % 2 == 0
  | _ => false

/-- `isTAddress` from tools.addresses.ts (`!!address && regex.test(address)`;
`none` models `undefined`/`null`). -/
def isTAddress (address : Option (List Char)) : Bool :=
  match address with
  | none => false
  | some s => !s.isEmpty && isTAddressStr s

/-- `toChecksumAddress` from tools.addresses.ts: checksum via viem
`getAddress`, returning the zero address on any failure, on `'GENESIS'`, or on
a falsy input (the `try`/`catch` and fall-through of the source). -/
def toChecksumAddress (hash : List Char → Nat → Bool) (address : Option (List Char)) :
    List Char :=
  match address with
  | none => zeroAddr
  | some a =>
    if !a.isEmpty && a != genesisStr then
      match getAddressE hash a with
      | .ok c => if isTAddress (some c) then c else zeroAddr
      | .error _ => zeroAddr
    else zeroAddr

/-- `toAddress` from tools.addresses.ts.  The outer `getAddress` call is not
wrapped in a `try`, so a hypothetical throw there would propagate: we keep the
`Except` carrier and later prove the error case unreachable. -/
def toAddressE (hash : List Char → Nat → Bool) (address : Option (List Char)) :
    Except Err (List Char) :=
  match address with
  | none => .ok zeroAddr
  | some s =>
    if s.isEmpty then .ok zeroAddr
    else getAddressE hash (toChecksumAddress hash (some (trimChars s)))

/-- `isZeroAddress`: `toAddress(address) === toAddress(zeroAddress)`. -/
def isZeroAddressE (hash : List Char → Nat → Bool) (address : Option (List Char)) :
    Except Err Bool := do
  let x ← toAddressE hash address
  let z ← toAddressE hash (some zeroAddr)
  pure (x == z)

/-- `isAddress` from tools.addresses.ts:
`!!address && regex.test(address) && !isZeroAddress(address)`. -/
def isAddressE (hash : List Char → Nat → Bool) (address : Option (List Char)) :
    Except Err Bool :=
  match address with
  | none => .ok false
  | some s =>
    if s.isEmpty then .ok false
    else if isTAddressStr s then do
      let z ← isZeroAddressE hash (some s)
      pure (!z)
    else .ok false

/-- `ethTokenAddress`: the module-level constant `toAddress('0xeee…eee')`. -/
def ethTokenAddressE (hash : List Char → Nat → Bool) : Except Err (List Char) :=
  toAddressE hash (some ethRawStr)

/-- `isEthAddress`: `toAddress(address) === toAddress(ethTokenAddress)`. -/
def isEthAddressE (hash : List Char → Nat → Bool) (address : Option (List Char)) :
    Except Err Bool := do
  let x ← toAddressE hash address
  let e ← ethTokenAddressE hash
  let y ← toAddressE hash (some e)
  pure (x == y)

/-- `assert` from _utils/helpers.ts (throws `new Error(message)` on a false
condition). -/
def assertE (condition : Bool) (message : List Char) : Except Err Unit :=
  if condition then .ok () else .error (plainErr message)

def msgNotSet : List Char := " is not set".toList
def msgInvalid : List Char := " provided is invalid".toList
def msgZero : List Char := " is 0x0".toList
def msgEth : List Char := " is 0xE".toList

/-- `assertAddress` from tools.addresses.ts. -/
def assertAddressE (hash : List Char → Nat → Bool) (addr : Option (List Char))
    (nm : List Char) : Except Err Unit := do
  let a1 ← isAddressE hash addr
  assertE a1 (nm ++ msgNotSet)
  assertE (isTAddress addr) (nm ++ msgInvalid)
  let t ← toAddressE hash addr
  assertE (t != zeroAddr) (nm ++ msgZero)
  let e ← isEthAddressE hash addr
  assertE (!e) (nm ++ msgEth)

/-! ## getAddressAndEns (tools.addresses.ts) -/

def ethSuffix : List Char := ".eth".toList

/-- `address.endsWith('.eth')`. -/
def endsWithEth (s : List Char) : Bool :=
  s.reverse.take 4 == ethSuffix.reverse

/-- `getAddressAndEns` from tools.addresses.ts.  The ENS lookups are
uninterpreted oracles: `ensName` is what `getEnsName` resolves to for the
given input (viem `null` is `none`) and `ensAddr` is what `getEnsAddress`
resolves the name to. -/
def getAddressAndEns (hash : List Char → Nat → Bool)
    (ensName : Option (List Char)) (ensAddr : Option (List Char))
    (address : List Char) : Except Err (Option (List Char × List Char)) := do
  if (← isAddressE hash (some address)) then
    let a ← toAddressE hash (some address)
    pure (some (a, ensName.getD []))
  else if endsWithEth address then
    let receiverAddress ← toAddressE hash ensAddr
    if (← isAddressE hash (some receiverAddress)) then
      let a ← toAddressE hash (some receiverAddress)
      pure (some (a, address))
    else
      pure Option.none
  else
    pure Option.none

/-! ## Decoders (src/unnamed/part_005) -/

/-- Runtime value inside a multicall result slot (`unknown` in the source);
constructors model the JavaScript runtime types `typeof` distinguishes. -/
inductive JsVal where
  | bigint (n : Int)
  | str (s : List Char)
  | num (x : Int)
  | boolean (b : Bool)
  | undef
  | obj
  deriving DecidableEq

/-- `TUnknowValueType`, defensively: `status` is `none` when the status field
is missing/undefined (the `!value?.status` guard), `result` is `none` when the
result field is `undefined`. -/
structure TUnknowValue where
  status : Option Bool -- `some true` = 'success', `some false` = 'failure'
  result : Option JsVal
  deriving DecidableEq

/-- The shared guard `!value?.status || value.status === 'failure'` (a `none`
input models `value` itself being `undefined`). -/
def decodeGuardFails (value : Option TUnknowValue) : Bool :=
  match value with
  | none => true
  | some v =>
    match v.status with
    | none => true
    | some b => !b

/-- `decodeAsBigInt` (`BigInt` applied to a bigint is the identity). -/
def decodeAsBigInt (value : Option TUnknowValue) (defaultValue : Int := 0) : Int :=
  if decodeGuardFails value then defaultValue
  else
    match value with
    | some v =>
      match v.result with
      | some (.bigint n) => n
      | _ => defaultValue
    | none => defaultValue

/-- `decodeAsString`. -/
def decodeAsString (value : Option TUnknowValue) (defaultValue : List Char := []) :
    List Char :=
  if decodeGuardFails value then defaultValue
  else
    match value with
    | some v =>
      match v.result with
      | some (.str s) => s
      | _ => defaultValue
    | none => defaultValue

/-- `decodeAsAddress`: converts a string result with `toAddress`; the
`try`/`catch` returns the default if that were to throw. -/
def decodeAsAddress (hash : List Char → Nat → Bool) (value : Option TUnknowValue)
    (defaultValue : List Char := zeroAddr) : List Char :=
  if decodeGuardFails value then defaultValue
  else
    match value with
    | some v =>
      match v.result with
      | some (.str s) =>
        match toAddressE hash (some s) with
        | .ok r => r
        | .error _ => defaultValue
      | _ => defaultValue
    | none => defaultValue

/-- `decodeAsNumber`. -/
def decodeAsNumber (value : Option TUnknowValue) (defaultValue : Int := 0) : Int :=
  if decodeGuardFails value then defaultValue
  else
    match value with
    | some v =>
      match v.result with
      | some (.num x) => x
      | _ => defaultValue
    | none => defaultValue

/-- `decodeAsBoolean`. -/
def decodeAsBoolean (value : Option TUnknowValue) (defaultValue : Bool := false) :
    Bool :=
  if decodeGuardFails value then defaultValue
  else
    match value with
    | some v =>
      match v.result with
      | some (.boolean b) => b
      | _ => defaultValue
    | none => defaultValue

/-! ## Constants (src/unnamed/part_004) -/

def MULTICALL_CONTRACT : List Char := "0xcA11bde05977b3631167028862bE2a173976CA11".toList

/-- `TChain`: the chain fields the embedded code reads (`id`, `name`, and the
Multicall3 contract address). -/
structure TChain where
  id : Nat
  name : List Char
  multicall3 : List Char
  deriving DecidableEq

/-- `NETWORKS` from src/unnamed/part_004: viem's `optimism` (id 10) and `base`
(id 8453) with overridden `name` and the Multicall3 contract. -/
def NETWORKS : List TChain :=
  [ { id := 10, name := "Optimism".toList, multicall3 := MULTICALL_CONTRACT },
    { id := 8453, name := "Base".toList, multicall3 := MULTICALL_CONTRACT } ]

/-! ## ChainProvider (src/nextjs/_contexts/WithChain.tsx) -/

/-- ASCII `toLowerCase` (chain names and URL slugs are ASCII). -/
def lowerAscii (c : Char) : Char :=
  if 'A' ≤ c ∧ c ≤ 'Z' then Char.ofNat (c.toNat + 32) else c

def lowerStr (s : List Char) : List Char := s.map lowerAscii

/-- `urlChain`: `NETWORKS.find(n => n.name.toLowerCase() === chainSlug.toLowerCase())`
guarded by `if (!chainSlug) return null`. -/
def urlChain (chainSlug : Option (List Char)) : Option TChain :=
  match chainSlug with
  | none => none
  | some s =>
    if s.isEmpty then none
    else NETWORKS.find? (fun n => lowerStr n.name == lowerStr s)

/-- JavaScript truthiness of an optional number (`undefined` and `0` are
falsy). -/
def natTruthy (o : Option Nat) : Bool := o.getD 0 != 0

/-- `accountChainID || fromChainID`. -/
def jsOrChainId (accountChainID : Option Nat) (fromChainID : Nat) : Nat :=
  if natTruthy accountChainID then accountChainID.getD 0 else fromChainID

/-- `isChainSupported`: is the current chain (wallet, else hook) in
`NETWORKS`? -/
def isChainSupported (accountChainID : Option Nat) (fromChainID : Nat) : Bool :=
  NETWORKS.any (fun n => n.id == jsOrChainId accountChainID fromChainID)

inductive ChainSource where
  | url
  | account
  | hook
  deriving DecidableEq

/-- `TChainContext`. -/
structure TChainContext where
  chainID : Nat
  source : ChainSource
  network : Option TChain
  deriving DecidableEq

/-- The `currentChain` memo of `ChainProvider`. -/
def currentChain (accountChainID : Option Nat) (fromChainID : Nat)
    (chainSlug : Option (List Char)) : TChainContext :=
  if !isChainSupported accountChainID fromChainID then
    { chainID := NETWORKS[0].id, source := .hook, network := some NETWORKS[0] }
  else
    match urlChain chainSlug with
    | some u => { chainID := u.id, source := .url, network := some u }
    | none =>
      if natTruthy accountChainID then
        { chainID := accountChainID.getD 0, source := .account,
          network := NETWORKS.find? (fun n => n.id == accountChainID.getD 0) }
      else
        { chainID := fromChainID, source := .hook,
          network := NETWORKS.find? (fun n => n.id == fromChainID) }

/-! ## handleTx (src/nextjs/_utils/handleTx.ts) -/

/-- One observable step of a `handleTx` run: a synchronous UI status update, a
status update scheduled via `setTimeout` (the `finally` reset), or one of the
wagmi calls; `switch` carries the target chain id, `write` the simulation
request it was applied to, `wait` the hash it waits on. -/
inductive TxEvent where
  | status (s : TTxStatus)
  | deferred (s : TTxStatus)
  | switch (chainId : Nat)
  | sim
  | write (request : Nat)
  | wait (txHash : Nat)
  deriving DecidableEq

/-- Oracles for the wagmi calls: what each call would do if performed
(`simulateContract` yields a request token, `writeContract` maps a request to
a hash, `waitForTransactionReceipt` maps a hash to a receipt; `.error` models
a rejected promise). -/
structure World where
  switchResult : Except Err Unit
  simulateResult : Except Err Nat
  writeResult : Nat → Except Err Nat
  waitResult : Nat → Except Err TransactionReceipt

/-- `args.statusHandler?.(s)`: an emission only when a handler is installed. -/
def emitS (handler : Bool) (s : TTxStatus) : List TxEvent :=
  if handler then [.status s] else []

/-- The `setTimeout`-deferred `statusHandler?.({...defaultTxStatus})`. -/
def emitD (handler : Bool) (s : TTxStatus) : List TxEvent :=
  if handler then [.deferred s] else []

def switchErrMsg : List Char := "Error switching chain".toList
def revertedMsg : List Char := "Transaction reverted".toList
def mismatchMsg : List Char := "ChainID mismatch".toList

/-- `{...defaultTxStatus, pending: true}` (note: `none` stays `true`). -/
def pendingUpd : TTxStatus := { defaultTxStatus with pending := true }

/-- `{...defaultTxStatus, success: true}`. -/
def successUpd : TTxStatus := { defaultTxStatus with success := true }

/-- `{...defaultTxStatus, error: true, errorMessage: m}`. -/
def errorUpd (m : List Char) : TTxStatus := { defaultTxStatus with error := true, errorMessage := m }

/-- `{...defaultTxStatus, error: true}` (tools.transactions.ts variant). -/
def errorUpdBare : TTxStatus := { defaultTxStatus with error := true }

/-- `TWriteTransaction` of handleTx.ts plus the single piece of wagmi config
state it reads (`config.state.chainId`).  `statusHandler` is whether a handler
was supplied; toast flags are kept for fidelity though they only drive
`console` output. -/
structure HArgs where
  chainID : Nat
  configChainId : Nat
  statusHandler : Bool
  shouldDisplaySuccessToast : Option Bool
  shouldDisplayErrorToast : Option Bool
  shouldResetStatus : Option Bool

/-- The `catch` block of handleTx.ts: non-`BaseError`s return silently,
`BaseError`s additionally emit `{error: true, errorMessage: shortMessage}`. -/
def hCatchH (a : HArgs) (tr : List TxEvent) (e : Err) :
    Except Err TTxResponse × List TxEvent :=
  if !e.isBase then (.ok ⟨false, none, some e⟩, tr)
  else (.ok ⟨false, none, some e⟩, tr ++ emitS a.statusHandler (errorUpd e.shortMessage))

/-- The `try` block of handleTx.ts: simulate, write the returned request, wait
for the returned hash, then emit the receipt-status update. -/
def hTryH (w : World) (a : HArgs) (tr : List TxEvent) :
    Except Err TTxResponse × List TxEvent :=
  let tr := tr ++ [.sim]
  match w.simulateResult with
  | .error e => hCatchH a tr e
  | .ok request =>
    let tr := tr ++ [.write request]
    match w.writeResult request with
    | .error e => hCatchH a tr e
    | .ok txHash =>
      let tr := tr ++ [.wait txHash]
      match w.waitResult txHash with
      | .error e => hCatchH a tr e
      | .ok receipt =>
        let tr := tr ++
          (if receipt.status == .success then emitS a.statusHandler successUpd
           else emitS a.statusHandler (errorUpd revertedMsg))
        (.ok ⟨receipt.status == .success, some receipt, none⟩, tr)

/-- The `finally` block: when `shouldResetStatus` (default `true`), schedule a
reset to `defaultTxStatus` after 3000ms. -/
def withFinally (handler : Bool) (shouldResetStatus : Option Bool)
    (res : Except Err TTxResponse × List TxEvent) :
    Except Err TTxResponse × List TxEvent :=
  if shouldResetStatus.getD true then (res.1, res.2 ++ emitD handler defaultTxStatus)
  else res

/-- `assert(config.state.chainId === args.chainID, 'ChainID mismatch')`
followed by the `try`/`catch`/`finally` of handleTx.ts; `chainNow` is the
config chain id at that point (after any switch). -/
def hAssertTryH (w : World) (a : HArgs) (chainNow : Nat) (tr : List TxEvent) :
    Except Err TTxResponse × List TxEvent :=
  if chainNow != a.chainID then (.error (plainErr mismatchMsg), tr)
  else withFinally a.statusHandler a.shouldResetStatus (hTryH w a tr)

/-- `handleTx` from src/nextjs/_utils/handleTx.ts.  A successful `switchChain`
leaves `config.state.chainId` equal to `args.chainID` (that is what wagmi's
`switchChain` does), which is what the subsequent `assert` re-checks. -/
def handleTxH (w : World) (a : HArgs) : Except Err TTxResponse × List TxEvent :=
  let tr0 := emitS a.statusHandler pendingUpd
  if a.configChainId == a.chainID then
    hAssertTryH w a a.configChainId tr0
  else
    let tr1 := tr0 ++ [.switch a.chainID]
    match w.switchResult with
    | .error e =>
      if !e.isBase then (.ok ⟨false, none, some e⟩, tr1)
      else (.ok ⟨false, none, some e⟩, tr1 ++ emitS a.statusHandler (errorUpd switchErrMsg))
    | .ok _ => hAssertTryH w a a.chainID tr1

/-! ## handleTx (src/nextjs/_utils/tools.transactions.ts) -/

def invalidMsg : List Char := "Invalid config or connector or address".toList
def cfeeName : List Char := "ContractFunctionExecutionError".toList
def userRejectedMsg : List Char := "User rejected the request.".toList
def contractAddressName : List Char := "contractAddress".toList

/-- `TWriteTransaction` of tools.transactions.ts: presence of `config` and
`connector`, the connector's chain id, and the optional fallback
`onTrySomethingElse` modelled by the `TTxResponse` promise it would settle
with (`.error` = it rejects). -/
structure TArgs where
  chainID : Nat
  hasConfig : Bool
  hasConnector : Bool
  connectorChainId : Nat
  statusHandler : Bool
  onTrySomethingElse : Option (Except Err TTxResponse)
  shouldDisplaySuccessToast : Option Bool
  shouldDisplayErrorToast : Option Bool
  shouldResetStatus : Option Bool

/-- The props of the tools.transactions.ts `handleTx` that the control flow
reads. -/
structure TProps where
  address : Option (List Char)
  confirmation : Option Nat

/-- JavaScript falsiness of the optional `address` prop (`undefined` or
`''`). -/
def addrFalsy (address : Option (List Char)) : Bool :=
  match address with
  | none => true
  | some s => s.isEmpty

/-- The `catch` block of the tools.transactions.ts `handleTx`: non-`BaseError`s
return silently; a present `onTrySomethingElse` intercepts
`ContractFunctionExecutionError`s that are not user rejections and its result
is returned verbatim; otherwise emit `{error: true}` and return the error. -/
def tCatchT (a : TArgs) (tr : List TxEvent) (e : Err) :
    Except Err TTxResponse × List TxEvent :=
  if !e.isBase then (.ok ⟨false, none, some e⟩, tr)
  else
    match a.onTrySomethingElse with
    | some fb =>
      if e.name == cfeeName && e.shortMessage != userRejectedMsg then (fb, tr)
      else (.ok ⟨false, none, some e⟩, tr ++ emitS a.statusHandler errorUpdBare)
    | none => (.ok ⟨false, none, some e⟩, tr ++ emitS a.statusHandler errorUpdBare)

/-- The `try` block of the tools.transactions.ts `handleTx`. -/
def tTryT (w : World) (a : TArgs) (tr : List TxEvent) :
    Except Err TTxResponse × List TxEvent :=
  let tr := tr ++ [.sim]
  match w.simulateResult with
  | .error e => tCatchT a tr e
  | .ok request =>
    let tr := tr ++ [.write request]
    match w.writeResult request with
    | .error e => tCatchT a tr e
    | .ok txHash =>
      let tr := tr ++ [.wait txHash]
      match w.waitResult txHash with
      | .error e => tCatchT a tr e
      | .ok receipt =>
        let tr := tr ++
          (if receipt.status == .success then emitS a.statusHandler successUpd
           else emitS a.statusHandler errorUpdBare)
        (.ok ⟨receipt.status == .success, some receipt, none⟩, tr)

/-- `assertAddress(props.address, 'contractAddress')`, then
`assert(chainID === args.chainID, 'ChainID mismatch')` — where `chainID` is
the connector chain id read *before* any switch — then the
`try`/`catch`/`finally`. -/
def tAssertTryT (hash : List Char → Nat → Bool) (w : World) (a : TArgs) (p : TProps)
    (chainID : Nat) (tr : List TxEvent) : Except Err TTxResponse × List TxEvent :=
  match assertAddressE hash p.address contractAddressName with
  | .error e => (.error e, tr)
  | .ok _ =>
    if chainID != a.chainID then (.error (plainErr mismatchMsg), tr)
    else withFinally a.statusHandler a.shouldResetStatus (tTryT w a tr)

/-- `handleTx` from src/nextjs/_utils/tools.transactions.ts. -/
def handleTxT (hash : List Char → Nat → Bool) (w : World) (a : TArgs) (p : TProps) :
    Except Err TTxResponse × List TxEvent :=
  if !a.hasConfig || addrFalsy p.address || !a.hasConnector then
    (.ok ⟨false, none, some (plainErr invalidMsg)⟩, [])
  else
    let tr0 := emitS a.statusHandler pendingUpd
    let chainID := a.connectorChainId
    if chainID == a.chainID then
      tAssertTryT hash w a p chainID tr0
    else
      let tr1 := tr0 ++ [.switch a.chainID]
      match w.switchResult with
      | .error e =>
        if !e.isBase then (.ok ⟨false, none, some e⟩, tr1)
        else (.ok ⟨false, none, some e⟩, tr1 ++ emitS a.statusHandler errorUpdBare)
      | .ok _ => tAssertTryT hash w a p chainID tr1

/-! ## Transaction.perform (tools.transactions.ts) -/

/-- A status reaching `onStatus`: directly, or later through `setTimeout`. -/
inductive Emission where
  | now (s : TTxStatus)
  | later (s : TTxStatus)
  deriving DecidableEq

def txFailedMsg : List Char := "Transaction failed".toList

/-- `a || b` on strings (empty string is falsy). -/
def jsOrStr (a b : List Char) : List Char := if a.isEmpty then b else a

/-- `onHandleError`: emit the error status, schedule a reset. -/
def onHandleError (msg : List Char) : List Emission :=
  [.now { errorTxStatus with errorMessage := msg }, .later defaultTxStatus]

/-- Everything a `Transaction.perform` run consumes: the settled result of
`funcCall`, whether a success callback is installed and how it settles, and
`options?.shouldIgnoreSuccessTxStatusChange`. -/
structure PerformIn where
  funcResult : Except Err TTxResponse
  hasSuccessCall : Bool
  successResult : Except Err Unit
  options : Option Bool

/-- The tail of the `isSuccessful` branch of `perform`. -/
def performSuccessTail (p : PerformIn) (r : TTxResponse) :
    TTxResponse × List Emission :=
  if p.options.getD false then (⟨r.isSuccessful, r.receipt, none⟩, [])
  else (⟨r.isSuccessful, r.receipt, none⟩, [.now successTxStatus, .later defaultTxStatus])

/-- `Transaction.perform`: pending status, run `funcCall`, then the success
callback / status bookkeeping; the `catch` turns any rejection into an error
status and a resolved `{isSuccessful: false}`. -/
def perform (p : PerformIn) : TTxResponse × List Emission :=
  let pre : List Emission := [.now pendingTxStatus]
  match p.funcResult with
  | .error e =>
    (⟨false, none, none⟩, pre ++ onHandleError (jsOrStr e.shortMessage (jsOrStr e.message txFailedMsg)))
  | .ok r =>
    if r.isSuccessful then
      if p.hasSuccessCall && r.receipt.isSome then
        match p.successResult with
        | .error e =>
          (⟨false, none, none⟩, pre ++ onHandleError (jsOrStr e.shortMessage (jsOrStr e.message txFailedMsg)))
        | .ok _ =>
          let t := performSuccessTail p r
          (t.1, pre ++ t.2)
      else
        let t := performSuccessTail p r
        (t.1, pre ++ t.2)
    else
      (⟨false, none, none⟩,
        pre ++ onHandleError (match r.error with
          | some e => jsOrStr e.message txFailedMsg
          | none => txFailedMsg))

/-! ## Trace observations (for the temporal claims) -/

/-- Is the event one of the underlying wagmi operations (as opposed to a UI
status update)? -/
def isOpEvent (e : TxEvent) : Bool :=
  match e with
  | .status _ => false
  | .deferred _ => false
  | _ => true

/-- The operations performed during a run, in order. -/
def opsOf (tr : List TxEvent) : List TxEvent := tr.filter isOpEvent

/-- Position of an operation in the five-step workflow of the spec. -/
def opIdx (e : TxEvent) : Nat :=
  match e with
  | .switch _ => 0
  | .sim => 1
  | .write _ => 2
  | .wait _ => 3
  | _ => 4

/-- The operations occur in the fixed sequential order of the spec (each at
most once, strictly increasing workflow position). -/
def OrderedOps (l : List TxEvent) : Prop :=
  l.Pairwise (fun x y => opIdx x < opIdx y)

/-- The suffix of the trace after the last performed operation. -/
def afterLastOp (tr : List TxEvent) : List TxEvent :=
  (tr.reverse.takeWhile (fun e => !isOpEvent e)).reverse

/-- The synchronous status updates in a trace. -/
def statusesOf (tr : List TxEvent) : List TTxStatus :=
  tr.filterMap (fun e => match e with | .status s => some s | _ => none)

/-! ## Claim-side definitions -/

/-- Spec side (C2): the receipt `waitForTransactionReceipt` returned during
the run of handleTx.ts's `handleTx`, if it was reached and resolved. -/
def minedReceiptH (w : World) (a : HArgs) : Option TransactionReceipt :=
  if a.configChainId != a.chainID && !(w.switchResult matches .ok _) then none
  else
    match w.simulateResult with
    | .error _ => none
    | .ok request =>
      match w.writeResult request with
      | .error _ => none
      | .ok txHash => (w.waitResult txHash).toOption

/-- Spec side (C2): the receipt `waitForTransactionReceipt` returned during
the run of the tools.transactions.ts `handleTx`, if it was reached and
resolved (the wait is only reachable when the arguments are valid and no
chain switch was needed, because the stale-chain `assert` throws after a
successful switch). -/
def minedReceiptT (w : World) (a : TArgs) (p : TProps) : Option TransactionReceipt :=
  if !a.hasConfig || addrFalsy p.address || !a.hasConnector then none
  else if a.connectorChainId != a.chainID then none
  else
    match w.simulateResult with
    | .error _ => none
    | .ok request =>
      match w.writeResult request with
      | .error _ => none
      | .ok txHash => (w.waitResult txHash).toOption

/-- Spec side (C5, as the claim states it): does the wallet report a chain id
that belongs to `NETWORKS`? -/
def walletInNetworks (accountChainID : Option Nat) : Bool :=
  natTruthy accountChainID && NETWORKS.any (fun n => n.id == accountChainID.getD 0)

/-- Spec side (C5, as the claim states it): first entry of `NETWORKS` when
neither the wallet chain id nor the hook chain id belongs to `NETWORKS`;
otherwise the URL-slug match; otherwise the wallet chain; otherwise the hook
chain.  Returns the selected chain id and network. -/
def c5ClaimSelect (accountChainID : Option Nat) (fromChainID : Nat)
    (chainSlug : Option (List Char)) : Nat × Option TChain :=
  if !walletInNetworks accountChainID
      && !(NETWORKS.any (fun n => n.id == fromChainID)) then
    (NETWORKS[0].id, some NETWORKS[0])
  else
    match urlChain chainSlug with
    | some u => (u.id, some u)
    | none =>
      if natTruthy accountChainID then
        (accountChainID.getD 0, NETWORKS.find? (fun n => n.id == accountChainID.getD 0))
      else
        (fromChainID, NETWORKS.find? (fun n => n.id == fromChainID))

/-- Spec side (C5, amended): same as the claim except the first case tests the
*effective* chain id (the wallet's when the wallet reports one, otherwise the
hook's) for membership in `NETWORKS`. -/
def c5AmendedSelect (accountChainID : Option Nat) (fromChainID : Nat)
    (chainSlug : Option (List Char)) : Nat × Option TChain :=
  if !(NETWORKS.any (fun n => n.id == jsOrChainId accountChainID fromChainID)) then
    (NETWORKS[0].id, some NETWORKS[0])
  else
    match urlChain chainSlug with
    | some u => (u.id, some u)
    | none =>
      if natTruthy accountChainID then
        (accountChainID.getD 0, NETWORKS.find? (fun n => n.id == accountChainID.getD 0))
      else
        (fromChainID, NETWORKS.find? (fun n => n.id == fromChainID))

/-- Spec side (C7/C8): a syntactically valid, non-zero Ethereum address —
`0x` + 40 hex digits, not all zero. -/
def isValidNonZeroAddr (s : List Char) : Bool :=
  match s with
  | '0' :: 'x' :: body =>
    body.length == 40 && body.all isHexDigit && body.any (fun c => hexLower c != '0')
  | _ => false

/-- Spec side (C8): an EIP-55 checksummed 20-byte address (with respect to the
keccak case-bit oracle `hash`): correct shape and a fixed point of
checksumming. -/
def isChecksummedAddr (hash : List Char → Nat → Bool) (s : List Char) : Bool :=
  isHexAddress40 s && checksumAddress hash s == s

/-- Spec side (C7): the result `getAddressAndEns` must produce according to
the claim — the checksummed address with the reverse-resolved label for a
valid non-zero address; the forward-resolved (normalized) address labelled by
the input for a `.eth` name resolving to a valid non-zero address; `undefined`
otherwise. -/
def c7Expected (hash : List Char → Nat → Bool) (ensName : Option (List Char))
    (ensAddr : Option (List Char)) (address : List Char) :
    Option (List Char × List Char) :=
  if isValidNonZeroAddr address then
    some (checksumAddress hash address, ensName.getD [])
  else if endsWithEth address then
    match ensAddr with
    | some t =>
      if isValidNonZeroAddr (trimChars t) then
        some (checksumAddress hash (trimChars t), address)
      else none
    | none => none
  else none

/-- Spec side (C10): what each decoder must return according to the claim —
the default on a failure/missing status or a type mismatch, the result value
on a match (checksummed via `toAddress` for `decodeAsAddress`). -/
def c10ExpectBigInt (value : Option TUnknowValue) (d : Int) : Int :=
  match value with
  | some ⟨some true, some (.bigint n)⟩ => n
  | _ => d

def c10ExpectString (value : Option TUnknowValue) (d : List Char) : List Char :=
  match value with
  | some ⟨some true, some (.str s)⟩ => s
  | _ => d

def c10ExpectNumber (value : Option TUnknowValue) (d : Int) : Int :=
  match value with
  | some ⟨some true, some (.num x)⟩ => x
  | _ => d

def c10ExpectBoolean (value : Option TUnknowValue) (d : Bool) : Bool :=
  match value with
  | some ⟨some true, some (.boolean b)⟩ => b
  | _ => d

/-- Spec side (C4): statuses emitted directly (not via `setTimeout`). -/
def nowStatuses (l : List Emission) : List TTxStatus :=
  l.filterMap (fun e => match e with | .now s => some s | _ => none)

/-- Spec side (C4): terminal statuses (success or error) among them. -/
def nowTerminals (l : List Emission) : List TTxStatus :=
  (nowStatuses l).filter (fun s => s.success || s.error)

/-- Spec side (C4, amended): the terminal status `perform` must emit — the
error status when `funcCall` rejects, resolves unsuccessfully, or the success
callback throws; else the success status, suppressed when
`shouldIgnoreSuccessTxStatusChange` is set. -/
def c4ExpectedTerminals (p : PerformIn) : List TTxStatus :=
  match p.funcResult with
  | .error e =>
    [{ errorTxStatus with errorMessage := jsOrStr e.shortMessage (jsOrStr e.message txFailedMsg) }]
  | .ok r =>
    if r.isSuccessful then
      match (if p.hasSuccessCall && r.receipt.isSome then some p.successResult else none) with
      | some (.error e) =>
        [{ errorTxStatus with errorMessage := jsOrStr e.shortMessage (jsOrStr e.message txFailedMsg) }]
      | _ => if p.options.getD false then [] else [successTxStatus]
    else
      [{ errorTxStatus with errorMessage :=
          (match r.error with | some e => jsOrStr e.message txFailedMsg | none => txFailedMsg) }]

/-- The value `toAddress` evaluates to (proved below: `toAddressE` always
succeeds with this value). -/
def toAddrVal (hash : List Char → Nat → Bool) (address : Option (List Char)) :
    List Char :=
  match address with
  | none => zeroAddr
  | some s =>
    if s.isEmpty then zeroAddr
    else if isHexAddress40 (trimChars s) then checksumAddress hash (trimChars s)
    else zeroAddr

/-- Spec side (C10): `decodeAsAddress` must return the checksummed form (the
repository's `toAddress` normalization) of a string result. -/
def c10ExpectAddress (hash : List Char → Nat → Bool) (value : Option TUnknowValue)
    (d : List Char) : List Char :=
  match value with
  | some ⟨some true, some (.str s)⟩ => toAddrVal hash (some s)
  | _ => d

/-! ## Character-level lemmas -/

theorem hexLower_cases (c : Char) :
    hexLower c = c ∨ c ∈ ['A', 'B', 'C', 'D', 'E', 'F'] := by
  unfold hexLower
  split
  all_goals simp_all

theorem hexUpper_cases (c : Char) :
    hexUpper c = c ∨ c ∈ ['a', 'b', 'c', 'd', 'e', 'f'] := by
  unfold hexUpper
  split
  all_goals simp_all

theorem hexLower_hexLower (c : Char) : hexLower (hexLower c) = hexLower c := by
  rcases hexLower_cases c with h | h
  · rw [h]; exact h
  · fin_cases h <;> rfl

theorem hexLower_hexUpper (c : Char) : hexLower (hexUpper c) = hexLower c := by
  rcases hexUpper_cases c with h | h
  · rw [h]
  · fin_cases h <;> rfl

theorem isHexDigit_cases (c : Char) (h : isHexDigit c = true) :
    c ∈ ['0', '1', '2', '3', '4', '5', '6', '7', '8', '9',
         'A', 'B', 'C', 'D', 'E', 'F', 'a', 'b', 'c', 'd', 'e', 'f'] := by
  unfold isHexDigit at h
  split at h
  all_goals simp_all

theorem isHexDigit_hexLower (c : Char) (h : isHexDigit c = true) :
    isHexDigit (hexLower c) = true := by
  have hm := isHexDigit_cases c h
  fin_cases hm <;> rfl

theorem isHexDigit_hexUpper (c : Char) (h : isHexDigit c = true) :
    isHexDigit (hexUpper c) = true := by
  have hm := isHexDigit_cases c h
  fin_cases hm <;> rfl

theorem hexLower_eq_zero (c : Char) (h : hexLower c = '0') : c = '0' := by
  rcases hexLower_cases c with h2 | h2
  · rw [← h2, h]
  · fin_cases h2 <;> exact absurd h (by decide)

theorem isHexDigit_not_ws (c : Char) (h : isHexDigit c = true) : isJsWS c = false := by
  have hm := isHexDigit_cases c h
  fin_cases hm <;> rfl

/-! ## List-level lemmas -/

theorem applyCase_length (bs : List Bool) (cs : List Char) :
    (applyCase bs cs).length = cs.length := by
  induction bs generalizing cs with
  | nil => cases cs <;> rfl
  | cons b bs ih =>
    cases cs with
    | nil => rfl
    | cons c cs => simp [applyCase, ih]

theorem applyCase_all_hex (bs : List Bool) (cs : List Char)
    (h : cs.all isHexDigit = true) : (applyCase bs cs).all isHexDigit = true := by
  induction bs generalizing cs with
  | nil => cases cs <;> exact h
  | cons b bs ih =>
    cases cs with
    | nil => rfl
    | cons c cs =>
      simp only [List.all_cons, Bool.and_eq_true] at h
      simp only [applyCase, List.all_cons, Bool.and_eq_true]
      refine ⟨?_, ih cs h.2⟩
      cases b
      · simpa using h.1
      · simpa using isHexDigit_hexUpper c h.1

theorem map_hexLower_applyCase (bs : List Bool) (cs : List Char) :
    (applyCase bs cs).map hexLower = cs.map hexLower := by
  induction bs generalizing cs with
  | nil => cases cs <;> rfl
  | cons b bs ih =>
    cases cs with
    | nil => rfl
    | cons c cs =>
      cases b
      · simp [applyCase, ih]
      · simp [applyCase, ih, hexLower_hexUpper]

theorem map_hexLower_idem (cs : List Char) :
    (cs.map hexLower).map hexLower = cs.map hexLower := by
  induction cs with
  | nil => rfl
  | cons c cs ih => simp [ih, hexLower_hexLower]

theorem applyCase_replicate_zero (bs : List Bool) (n : Nat) :
    applyCase bs (List.replicate n '0') = List.replicate n '0' := by
  induction n generalizing bs with
  | zero => cases bs <;> rfl
  | succ n ih =>
    cases bs with
    | nil => rfl
    | cons b bs =>
      cases b <;> simp [applyCase, List.replicate_succ, ih, hexUpper]

theorem any_ne_zero_eq_not_all (l : List Char) :
    l.any (fun c => hexLower c != '0') = !l.all (fun c => hexLower c == '0') := by
  induction l with
  | nil => rfl
  | cons c cs ih =>
    simp only [List.any_cons, List.all_cons, bne] at ih ⊢
    by_cases h : hexLower c = '0' <;> simp [h, ih]

/-! ## Checksum-level lemmas -/

theorem isHex40_shape (s : List Char) (h : isHexAddress40 s = true) :
    ∃ body, s = '0' :: 'x' :: body ∧ body.length = 40 ∧ body.all isHexDigit = true := by
  unfold isHexAddress40 at h
  split at h
  · next body =>
    simp only [Bool.and_eq_true, beq_iff_eq] at h
    exact ⟨body, rfl, h.1, h.2⟩
  · exact absurd h (by simp)

theorem map_hexLower_all_hex (body : List Char) (hall : body.all isHexDigit = true) :
    (body.map hexLower).all isHexDigit = true := by
  rw [List.all_map]
  rw [List.all_eq_true] at hall ⊢
  exact fun c hc => isHexDigit_hexLower c (hall c hc)

theorem checksum_shape (hash : List Char → Nat → Bool) (s : List Char)
    (h : isHexAddress40 s = true) :
    isHexAddress40 (checksumAddress hash s) = true := by
  obtain ⟨body, rfl, hlen, hall⟩ := isHex40_shape s h
  have hlow := map_hexLower_all_hex body hall
  have h1 : (applyCase (hashBits hash (body.map hexLower)) (body.map hexLower)).length = 40 := by
    rw [applyCase_length, List.length_map, hlen]
  have h2 := applyCase_all_hex (hashBits hash (body.map hexLower)) _ hlow
  simp [checksumAddress, isHexAddress40, h1, h2]

theorem checksum_idem (hash : List Char → Nat → Bool) (body : List Char) :
    checksumAddress hash (checksumAddress hash ('0' :: 'x' :: body)) =
      checksumAddress hash ('0' :: 'x' :: body) := by
  have hl : (applyCase (hashBits hash (body.map hexLower)) (body.map hexLower)).map hexLower
      = body.map hexLower := by
    rw [map_hexLower_applyCase, map_hexLower_idem]
  simp only [checksumAddress]
  rw [hl]

theorem checksum_zeroAddr (hash : List Char → Nat → Bool) :
    checksumAddress hash zeroAddr = zeroAddr := by
  have hm : (List.replicate 40 '0').map hexLower = List.replicate 40 '0' := by
    rw [List.map_replicate]; rfl
  show checksumAddress hash ('0' :: 'x' :: List.replicate 40 '0') = _
  simp only [checksumAddress]
  rw [hm, applyCase_replicate_zero]
  rfl

theorem isHex40_zeroAddr : isHexAddress40 zeroAddr = true := by decide

theorem isHex40_imp_isT (s : List Char) (h : isHexAddress40 s = true) :
    isTAddressStr s = true := by
  obtain ⟨body, rfl, hlen, hall⟩ := isHex40_shape s h
  simp [isTAddressStr, hall, hlen]

theorem hex40_mem_not_ws (s : List Char) (h : isHexAddress40 s = true) :
    ∀ c ∈ s, isJsWS c = false := by
  obtain ⟨body, rfl, hlen, hall⟩ := isHex40_shape s h
  intro c hc
  rw [List.all_eq_true] at hall
  rcases List.mem_cons.mp hc with rfl | hc
  · rfl
  · rcases List.mem_cons.mp hc with rfl | hc
    · rfl
    · exact isHexDigit_not_ws c (hall c hc)

theorem dropWhile_eq_self (p : Char → Bool) (l : List Char)
    (h : ∀ c ∈ l, p c = false) : l.dropWhile p = l := by
  cases l with
  | nil => rfl
  | cons c cs => simp [List.dropWhile_cons, h c (List.mem_cons_self c cs)]

theorem trim_eq_self (l : List Char) (h : ∀ c ∈ l, isJsWS c = false) :
    trimChars l = l := by
  unfold trimChars
  rw [dropWhile_eq_self _ _ h]
  rw [dropWhile_eq_self _ _ (fun c hc => h c (List.mem_reverse.mp hc))]
  exact List.reverse_reverse l

theorem trim_hex40 (s : List Char) (h : isHexAddress40 s = true) : trimChars s = s :=
  trim_eq_self s (hex40_mem_not_ws s h)

theorem trim_zeroAddr : trimChars zeroAddr = zeroAddr :=
  trim_hex40 zeroAddr isHex40_zeroAddr

/-! ## toAddress characterization -/

theorem isHex40_not_empty (s : List Char) (h : isHexAddress40 s = true) :
    s.isEmpty = false := by
  obtain ⟨body, rfl, _, _⟩ := isHex40_shape s h
  rfl

theorem hex40_ne_genesis (s : List Char) (h : isHexAddress40 s = true) :
    (s != genesisStr) = true := by
  by_cases hg : s = genesisStr
  · subst hg; exact absurd h (by decide)
  · simpa [bne_iff_ne] using hg

theorem toChecksum_eq (hash : List Char → Nat → Bool) (s : List Char) :
    toChecksumAddress hash (some s)
      = if isHexAddress40 s then checksumAddress hash s else zeroAddr := by
  by_cases h : isHexAddress40 s = true
  · have hne := isHex40_not_empty s h
    have hg := hex40_ne_genesis s h
    have hcs := checksum_shape hash s h
    have hT : isTAddress (some (checksumAddress hash s)) = true := by
      simp [isTAddress, isHex40_not_empty _ hcs, isHex40_imp_isT _ hcs]
    simp [toChecksumAddress, hne, hg, getAddressE, h, hT]
  · rw [if_neg h]
    simp only [Bool.not_eq_true] at h
    by_cases he : s.isEmpty = true
    · simp [toChecksumAddress, he]
    · by_cases hg : s = genesisStr
      · simp [toChecksumAddress, hg]
      · simp [toChecksumAddress, he, hg, getAddressE, h, bne_iff_ne]

theorem toAddressE_eq (hash : List Char → Nat → Bool) (a : Option (List Char)) :
    toAddressE hash a = .ok (toAddrVal hash a) := by
  cases a with
  | none => rfl
  | some s =>
    by_cases he : s.isEmpty = true
    · simp [toAddressE, toAddrVal, he]
    · simp only [toAddressE, toAddrVal, he, if_false, Bool.false_eq_true]
      rw [toChecksum_eq]
      by_cases h40 : isHexAddress40 (trimChars s) = true
      · rw [if_pos h40]
        have hcs := checksum_shape hash _ h40
        obtain ⟨body, hb, _, _⟩ := isHex40_shape _ h40
        simp only [getAddressE, hcs, if_true]
        rw [hb, checksum_idem]
      · rw [if_neg h40]
        simp [getAddressE, isHex40_zeroAddr, checksum_zeroAddr]

theorem toAddrVal_zero (hash : List Char → Nat → Bool) :
    toAddrVal hash (some zeroAddr) = zeroAddr := by
  have hne : zeroAddr.isEmpty = false := by decide
  simp [toAddrVal, hne, trim_zeroAddr, isHex40_zeroAddr, checksum_zeroAddr]

theorem toAddrVal_cases (hash : List Char → Nat → Bool) (a : Option (List Char)) :
    toAddrVal hash a = zeroAddr
      ∨ ∃ t, isHexAddress40 t = true ∧ toAddrVal hash a = checksumAddress hash t := by
  cases a with
  | none => exact Or.inl rfl
  | some s =>
    by_cases he : s.isEmpty = true
    · exact Or.inl (by simp [toAddrVal, he])
    · by_cases h40 : isHexAddress40 (trimChars s) = true
      · exact Or.inr ⟨trimChars s, h40, by simp [toAddrVal, he, h40]⟩
      · exact Or.inl (by simp [toAddrVal, he, h40])

theorem isChecksummed_checksum (hash : List Char → Nat → Bool) (t : List Char)
    (h : isHexAddress40 t = true) :
    isChecksummedAddr hash (checksumAddress hash t) = true := by
  obtain ⟨body, rfl, _, _⟩ := isHex40_shape t h
  simp [isChecksummedAddr, checksum_shape hash _ h, checksum_idem]

theorem isChecksummed_zeroAddr (hash : List Char → Nat → Bool) :
    isChecksummedAddr hash zeroAddr = true := by
  simp [isChecksummedAddr, isHex40_zeroAddr, checksum_zeroAddr]

theorem toAddrVal_idem (hash : List Char → Nat → Bool) (a : Option (List Char)) :
    toAddrVal hash (some (toAddrVal hash a)) = toAddrVal hash a := by
  rcases toAddrVal_cases hash a with h | ⟨t, ht, h⟩
  · rw [h, toAddrVal_zero]
  · rw [h]
    have hcs := checksum_shape hash t ht
    obtain ⟨body, hb, _, _⟩ := isHex40_shape t ht
    simp only [toAddrVal, isHex40_not_empty _ hcs, trim_hex40 _ hcs, hcs, if_true,
      Bool.false_eq_true, if_false]
    rw [hb, checksum_idem]

theorem isZeroAddressE_eq (hash : List Char → Nat → Bool) (a : Option (List Char)) :
    isZeroAddressE hash a = .ok (toAddrVal hash a == zeroAddr) := by
  unfold isZeroAddressE
  rw [toAddressE_eq, toAddressE_eq, toAddrVal_zero]
  rfl

theorem isT_shape (s : List Char) (h : isTAddressStr s = true) :
    ∃ body, s = '0' :: 'x' :: body ∧ body.all isHexDigit = true ∧ body.length % 2 = 0 := by
  unfold isTAddressStr at h
  split at h
  · next body =>
    simp only [Bool.and_eq_true, beq_iff_eq] at h
    exact ⟨body, rfl, h.1, h.2⟩
  · exact absurd h (by simp)

theorem cons0x_not_ws (body : List Char) (hall : body.all isHexDigit = true) :
    ∀ c ∈ ('0' :: 'x' :: body), isJsWS c = false := by
  intro c hc
  rw [List.all_eq_true] at hall
  rcases List.mem_cons.mp hc with rfl | hc
  · rfl
  · rcases List.mem_cons.mp hc with rfl | hc
    · rfl
    · exact isHexDigit_not_ws c (hall c hc)

theorem validNonZero_shape (s : List Char) (h : isValidNonZeroAddr s = true) :
    ∃ body, s = '0' :: 'x' :: body ∧ body.length = 40 ∧ body.all isHexDigit = true
      ∧ body.any (fun c => hexLower c != '0') = true := by
  unfold isValidNonZeroAddr at h
  split at h
  · next body =>
    simp only [Bool.and_eq_true, beq_iff_eq] at h
    exact ⟨body, rfl, h.1.1, h.1.2, h.2⟩
  · exact absurd h (by simp)

theorem validNonZero_imp_hex40 (s : List Char) (h : isValidNonZeroAddr s = true) :
    isHexAddress40 s = true := by
  obtain ⟨body, rfl, hlen, hall, _⟩ := validNonZero_shape s h
  simp [isHexAddress40, hlen, hall]

theorem checksum_eq_zero_iff (hash : List Char → Nat → Bool) (body : List Char)
    (hlen : body.length = 40) :
    checksumAddress hash ('0' :: 'x' :: body) = zeroAddr
      ↔ body.all (fun c => hexLower c == '0') = true := by
  constructor
  · intro h
    have h' : applyCase (hashBits hash (body.map hexLower)) (body.map hexLower)
        = List.replicate 40 '0' := by
      simpa [checksumAddress, zeroAddr] using h
    have hlw : body.map hexLower = List.replicate 40 '0' := by
      have h2 := congrArg (List.map hexLower) h'
      rw [map_hexLower_applyCase, map_hexLower_idem, List.map_replicate] at h2
      simpa using h2
    rw [List.all_eq_true]
    intro c hc
    have hm : hexLower c ∈ List.replicate 40 '0' := by
      rw [← hlw]; exact List.mem_map_of_mem _ hc
    simp [List.eq_of_mem_replicate hm]
  · intro h
    have hb : body = List.replicate 40 '0' := by
      rw [List.eq_replicate_iff]
      refine ⟨hlen, fun c hc => ?_⟩
      rw [List.all_eq_true] at h
      exact hexLower_eq_zero c (by simpa using h c hc)
    rw [hb]
    exact checksum_zeroAddr hash

theorem toAddrVal_eq_zero_iff (hash : List Char → Nat → Bool) (s : List Char)
    (hT : isTAddressStr s = true) :
    (toAddrVal hash (some s) == zeroAddr) = !isValidNonZeroAddr s := by
  obtain ⟨body, rfl, hall, hev⟩ := isT_shape s hT
  have htr : trimChars ('0' :: 'x' :: body) = ('0' :: 'x' :: body) :=
    trim_eq_self _ (cons0x_not_ws body hall)
  simp only [toAddrVal, List.isEmpty_cons, htr, Bool.false_eq_true, if_false]
  by_cases h40 : isHexAddress40 ('0' :: 'x' :: body) = true
  · rw [if_pos h40]
    have hlen : body.length = 40 := by
      obtain ⟨body2, heq, hlen2, _⟩ := isHex40_shape _ h40
      injection heq with _ heq; injection heq with _ heq
      rw [heq]; exact hlen2
    have hiff := checksum_eq_zero_iff hash body hlen
    rcases hb : body.all (fun c => hexLower c == '0') with _ | _
    · have hne : ¬ checksumAddress hash ('0' :: 'x' :: body) = zeroAddr := by
        intro hc
        rw [hiff.mp hc] at hb
        exact absurd hb (by decide)
      simp [isValidNonZeroAddr, hlen, hall, any_ne_zero_eq_not_all, hb, hne]
    · have hz := hiff.mpr hb
      simp [isValidNonZeroAddr, hlen, hall, any_ne_zero_eq_not_all, hb, hz]
  · rw [if_neg h40]
    have hv : isValidNonZeroAddr ('0' :: 'x' :: body) = false := by
      rcases hvv : isValidNonZeroAddr ('0' :: 'x' :: body) with _ | _
      · rfl
      · exact absurd (validNonZero_imp_hex40 _ hvv) h40
    simp [hv]

theorem isAddressE_eq (hash : List Char → Nat → Bool) (s : List Char) :
    isAddressE hash (some s) = .ok (isValidNonZeroAddr s) := by
  by_cases he : s.isEmpty = true
  · have : s = [] := by
      cases s
      · rfl
      · exact absurd he (by simp)
    subst this
    simp [isAddressE, isValidNonZeroAddr]
  · by_cases hT : isTAddressStr s = true
    · simp only [isAddressE, he, Bool.false_eq_true, if_false, hT, if_true]
      rw [isZeroAddressE_eq]
      show Except.ok (!(toAddrVal hash (some s) == zeroAddr)) = _
      rw [toAddrVal_eq_zero_iff hash s hT]
      simp
    · have hv : isValidNonZeroAddr s = false := by
        rcases hvv : isValidNonZeroAddr s with _ | _
        · rfl
        · exact absurd (isHex40_imp_isT _ (validNonZero_imp_hex40 _ hvv)) hT
      simp [isAddressE, he, hT, hv]

theorem toAddrVal_of_valid (hash : List Char → Nat → Bool) (s : List Char)
    (h : isValidNonZeroAddr s = true) :
    toAddrVal hash (some s) = checksumAddress hash s := by
  have h40 := validNonZero_imp_hex40 s h
  simp [toAddrVal, isHex40_not_empty _ h40, trim_hex40 _ h40, h40]

theorem validNonZero_checksum (hash : List Char → Nat → Bool) (u : List Char)
    (h40 : isHexAddress40 u = true) :
    isValidNonZeroAddr (checksumAddress hash u) = isValidNonZeroAddr u := by
  obtain ⟨body, rfl, hlen, hall⟩ := isHex40_shape u h40
  have hmap : (applyCase (hashBits hash (body.map hexLower)) (body.map hexLower)).map hexLower
      = body.map hexLower := by
    rw [map_hexLower_applyCase, map_hexLower_idem]
  have hany : (applyCase (hashBits hash (body.map hexLower)) (body.map hexLower)).any
        (fun c => hexLower c != '0')
      = body.any (fun c => hexLower c != '0') := by
    have h1 := congrArg (fun l => l.any (fun c => c != '0')) hmap
    simpa [List.any_map, Function.comp] using h1
  have hlen2 : (applyCase (hashBits hash (body.map hexLower)) (body.map hexLower)).length = 40 := by
    rw [applyCase_length, List.length_map, hlen]
  have hall2 := applyCase_all_hex (hashBits hash (body.map hexLower)) _
    (map_hexLower_all_hex body hall)
  simp [checksumAddress, isValidNonZeroAddr, hlen, hall, hlen2, hall2, hany]

theorem validNonZero_zeroAddr : isValidNonZeroAddr zeroAddr = false := by decide

theorem except_bind_ok {e a b : Type} (x : a) (f : a → Except e b) :
    (Except.ok x >>= f : Except e b) = f x := rfl

theorem except_pure_eq {e a : Type} (x : a) : (pure x : Except e a) = Except.ok x := rfl

theorem except_map_ok {e a b : Type} (f : a → b) (x : a) :
    (f <$> (Except.ok x : Except e a) : Except e b) = Except.ok (f x) := rfl

/-! ## Claim theorems: addresses and decoders -/

/-- C8: `toAddress` is total and idempotent — for every input (`none` models
`undefined`/`null`; strings cover `''`, `'GENESIS'`, malformed and non-hex
inputs) it returns, without throwing, either an EIP-55 checksummed 20-byte
address (with respect to the keccak case-bit oracle) or the zero address, and
applying `toAddress` to its own result returns that result unchanged. -/
theorem c8_toAddress_total_idempotent (hash : List Char → Nat → Bool)
    (a : Option (List Char)) :
    ∃ r, toAddressE hash a = .ok r
      ∧ (isChecksummedAddr hash r = true ∨ r = zeroAddr)
      ∧ toAddressE hash (some r) = .ok r := by
  refine ⟨toAddrVal hash a, toAddressE_eq hash a, ?_, ?_⟩
  · rcases toAddrVal_cases hash a with h | ⟨t, ht, h⟩
    · exact Or.inr h
    · rw [h]; exact Or.inl (isChecksummed_checksum hash t ht)
  · rw [toAddressE_eq, toAddrVal_idem]

/-- C7: `getAddressAndEns` returns (without throwing) exactly what the claim
describes: for a valid non-zero address, its checksummed form paired with the
reverse-resolved ENS name (empty label when the lookup yields `null`); for a
`.eth` name whose forward resolution yields a valid non-zero address (after
the `trim` normalization `toAddress` performs), that address checksummed and
labelled with the input name; `undefined` (`none`) in every other case,
including a failed resolution or one yielding the zero address.  The ENS
lookups are uninterpreted oracles. -/
theorem c7_getAddressAndEns_spec (hash : List Char → Nat → Bool)
    (ensName ensAddr : Option (List Char)) (address : List Char) :
    getAddressAndEns hash ensName ensAddr address
      = .ok (c7Expected hash ensName ensAddr address) := by
  by_cases hv : isValidNonZeroAddr address = true
  · simp [getAddressAndEns, c7Expected, except_bind_ok, except_pure_eq, except_map_ok, isAddressE_eq, hv, toAddressE_eq,
      toAddrVal_of_valid hash address hv]
  · by_cases he : endsWithEth address = true
    · cases ensAddr with
      | none =>
        simp [getAddressAndEns, c7Expected, except_bind_ok, except_pure_eq, except_map_ok, isAddressE_eq, hv, he, toAddressE_eq,
          toAddrVal, validNonZero_zeroAddr]
      | some t =>
        by_cases hte : t.isEmpty = true
        · have ht0 : t = [] := by
            cases t
            · rfl
            · exact absurd hte (by simp)
          subst ht0
          simp [getAddressAndEns, c7Expected, except_bind_ok, except_pure_eq, except_map_ok, isAddressE_eq, hv, he, toAddressE_eq,
            toAddrVal, validNonZero_zeroAddr, trimChars]
          rfl
        · by_cases h40 : isHexAddress40 (trimChars t) = true
          · have hrec : toAddrVal hash (some t) = checksumAddress hash (trimChars t) := by
              simp [toAddrVal, hte, h40]
            by_cases hvt : isValidNonZeroAddr (trimChars t) = true
            · have hv2 : isValidNonZeroAddr (checksumAddress hash (trimChars t)) = true := by
                rw [validNonZero_checksum hash _ h40]; exact hvt
              have hidem2 : toAddrVal hash (some (checksumAddress hash (trimChars t)))
                  = checksumAddress hash (trimChars t) := by
                have h3 := toAddrVal_idem hash (some t)
                rwa [hrec] at h3
              simp [getAddressAndEns, c7Expected, except_bind_ok, except_pure_eq, except_map_ok, isAddressE_eq, hv, he, toAddressE_eq,
                hv2, hvt, hidem2, hrec]
            · have hv2 : isValidNonZeroAddr (toAddrVal hash (some t)) = false := by
                rw [hrec, validNonZero_checksum hash _ h40]
                exact Bool.not_eq_true _ |>.mp hvt
              simp [getAddressAndEns, c7Expected, except_bind_ok, except_pure_eq, except_map_ok, isAddressE_eq, hv, he, toAddressE_eq,
                hv2, hvt]
          · have hrec : toAddrVal hash (some t) = zeroAddr := by
              simp [toAddrVal, hte, h40]
            have hvt : isValidNonZeroAddr (trimChars t) = false := by
              rcases hvv : isValidNonZeroAddr (trimChars t) with _ | _
              · rfl
              · exact absurd (validNonZero_imp_hex40 _ hvv) h40
            simp [getAddressAndEns, c7Expected, except_bind_ok, except_pure_eq, except_map_ok, isAddressE_eq, hv, he, toAddressE_eq,
              hrec, hvt, validNonZero_zeroAddr]
    · simp [getAddressAndEns, c7Expected, except_bind_ok, except_pure_eq, except_map_ok, isAddressE_eq, hv, he]

/-- C10: each decoder is total and returns its default on a missing/failure
status or a runtime type mismatch, and the result value itself on a type
match — checksummed through `toAddress` in the case of `decodeAsAddress`. -/
theorem c10_decoders_spec (hash : List Char → Nat → Bool)
    (value : Option TUnknowValue) (dB : Int) (dS : List Char) (dA : List Char)
    (dN : Int) (dBo : Bool) :
    decodeAsBigInt value dB = c10ExpectBigInt value dB
    ∧ decodeAsString value dS = c10ExpectString value dS
    ∧ decodeAsAddress hash value dA = c10ExpectAddress hash value dA
    ∧ decodeAsNumber value dN = c10ExpectNumber value dN
    ∧ decodeAsBoolean value dBo = c10ExpectBoolean value dBo := by
  rcases value with _ | ⟨st, res⟩
  · exact ⟨rfl, rfl, rfl, rfl, rfl⟩
  · rcases st with _ | b
    · refine ⟨?_, ?_, ?_, ?_, ?_⟩ <;>
        simp [decodeAsBigInt, decodeAsString, decodeAsAddress, decodeAsNumber,
          decodeAsBoolean, decodeGuardFails, c10ExpectBigInt, c10ExpectString,
          c10ExpectAddress, c10ExpectNumber, c10ExpectBoolean]
    · cases b with
      | false =>
        refine ⟨?_, ?_, ?_, ?_, ?_⟩ <;>
          simp [decodeAsBigInt, decodeAsString, decodeAsAddress, decodeAsNumber,
            decodeAsBoolean, decodeGuardFails, c10ExpectBigInt, c10ExpectString,
            c10ExpectAddress, c10ExpectNumber, c10ExpectBoolean]
      | true =>
        rcases res with _ | v
        · refine ⟨?_, ?_, ?_, ?_, ?_⟩ <;>
            simp [decodeAsBigInt, decodeAsString, decodeAsAddress, decodeAsNumber,
              decodeAsBoolean, decodeGuardFails, c10ExpectBigInt, c10ExpectString,
              c10ExpectAddress, c10ExpectNumber, c10ExpectBoolean]
        · cases v <;>
            refine ⟨?_, ?_, ?_, ?_, ?_⟩ <;>
              simp [decodeAsBigInt, decodeAsString, decodeAsAddress, decodeAsNumber,
                decodeAsBoolean, decodeGuardFails, c10ExpectBigInt, c10ExpectString,
                c10ExpectAddress, c10ExpectNumber, c10ExpectBoolean, toAddressE_eq]

/-! ## Claim theorems: constants and chain selection -/

/-- C6: `NETWORKS` contains exactly two entries — Optimism (chain id 10) and
Base (chain id 8453) — and both carry the Multicall3 contract at
`0xcA11bde05977b3631167028862bE2a173976CA11`. -/
theorem c6_networks_constant :
    NETWORKS.length = 2
    ∧ NETWORKS[0].id = 10 ∧ NETWORKS[0].name = "Optimism".toList
    ∧ NETWORKS[1].id = 8453 ∧ NETWORKS[1].name = "Base".toList
    ∧ NETWORKS[0].multicall3 = "0xcA11bde05977b3631167028862bE2a173976CA11".toList
    ∧ NETWORKS[1].multicall3 = "0xcA11bde05977b3631167028862bE2a173976CA11".toList := by
  decide

/-- C5 counterexample: wallet chain 1 (not in `NETWORKS`), hook chain 8453 (in
`NETWORKS`), no URL slug.  The claim's rule picks the wallet chain (1), but
`ChainProvider` computes supportedness from `accountChainID || fromChainID`
(= 1 here) and therefore falls back to the first entry of `NETWORKS`
(chain id 10). -/
theorem c5_counterexample :
    (currentChain (some 1) 8453 none).chainID = 10
    ∧ (c5ClaimSelect (some 1) 8453 none).1 = 1
    ∧ (currentChain (some 1) 8453 none).chainID ≠ (c5ClaimSelect (some 1) 8453 none).1 := by
  decide

/-- C5 (amended): `ChainProvider` selects the first entry of `NETWORKS` when
the *effective* current chain id — the wallet's when the wallet reports a
(nonzero) chain id, otherwise the hook's — does not belong to `NETWORKS`;
otherwise the network whose name matches the URL slug case-insensitively,
when one matches; otherwise the wallet chain when the wallet reports a chain
id; otherwise the hook chain id. -/
theorem c5_chain_selection_amended (accountChainID : Option Nat) (fromChainID : Nat)
    (chainSlug : Option (List Char)) :
    (currentChain accountChainID fromChainID chainSlug).chainID
        = (c5AmendedSelect accountChainID fromChainID chainSlug).1
    ∧ (currentChain accountChainID fromChainID chainSlug).network
        = (c5AmendedSelect accountChainID fromChainID chainSlug).2 := by
  unfold currentChain c5AmendedSelect isChainSupported
  rcases hu : urlChain chainSlug with _ | u <;>
    by_cases hs : (NETWORKS.any fun n => n.id == jsOrChainId accountChainID fromChainID) = true <;>
      by_cases ha : natTruthy accountChainID = true <;>
        simp [hu, hs, ha]

/-! ## Claim theorems: Transaction.perform -/

theorem jsOrStr_ne_nil (a b : List Char) (hb : b ≠ []) : jsOrStr a b ≠ [] := by
  unfold jsOrStr
  by_cases ha : a.isEmpty = true
  · simp [ha]; exact hb
  · simp [ha]
    intro h
    rw [h] at ha
    exact ha rfl

theorem jsOrStr_txFailed_ne (b : List Char) : jsOrStr b txFailedMsg ≠ [] :=
  jsOrStr_ne_nil _ _ (by decide)

theorem jsOrStr_fallback_ne (a b : List Char) : jsOrStr a (jsOrStr b txFailedMsg) ≠ [] :=
  jsOrStr_ne_nil _ _ (jsOrStr_txFailed_ne b)

theorem txFailed_ne_nil : txFailedMsg ≠ [] := by decide

/-- C4 counterexample: `funcCall` resolves with `isSuccessful: true` and a
receipt, a success callback is installed and throws (`shortMessage` "boom"),
`options` unset.  The claim requires the success status; `perform` emits the
error status instead and never emits the success status. -/
theorem c4_counterexample :
    nowTerminals (perform ⟨.ok ⟨true, some ⟨.success, 1⟩, none⟩, true,
        .error ⟨true, [], "boom".toList, "boom".toList⟩, none⟩).2
      = [{ errorTxStatus with errorMessage := "boom".toList }]
    ∧ successTxStatus ∉ nowStatuses (perform ⟨.ok ⟨true, some ⟨.success, 1⟩, none⟩, true,
        .error ⟨true, [], "boom".toList, "boom".toList⟩, none⟩).2 := by
  decide

/-- C4 (amended): the first status `perform` emits is the pending status, and
afterwards exactly one terminal status is emitted — the error status
(carrying a nonempty message) when `funcCall` rejects, resolves with
`isSuccessful` false, or the success callback throws; otherwise the success
status, suppressed entirely when `options.shouldIgnoreSuccessTxStatusChange`
is set; and `perform` always resolves with a `TTxResponse` (the embedding is
total over all oracle outcomes, including throwing callbacks). -/
theorem c4_perform_amended (p : PerformIn) :
    (nowStatuses (perform p).2).head? = some pendingTxStatus
    ∧ nowTerminals (perform p).2 = c4ExpectedTerminals p
    ∧ (nowTerminals (perform p).2).all
        (fun s => !s.error || !s.errorMessage.isEmpty) = true := by
  rcases p with ⟨fr, hsc, sr, opts⟩
  rcases fr with e | r
  · refine ⟨rfl, rfl, ?_⟩
    simp [nowTerminals, nowStatuses, perform, onHandleError, errorTxStatus,
      pendingTxStatus, List.isEmpty_iff, jsOrStr_fallback_ne]
  · rcases hsucc : r.isSuccessful with _ | _
    · refine ⟨?_, ?_, ?_⟩ <;>
        rcases he : r.error with _ | e <;>
          simp [perform, c4ExpectedTerminals, nowTerminals, nowStatuses, onHandleError,
            hsucc, he, errorTxStatus, pendingTxStatus, List.isEmpty_iff,
            jsOrStr_txFailed_ne, txFailed_ne_nil]
    · rcases hcb : (hsc && r.receipt.isSome) with _ | _
      · rcases ho : opts.getD false with _ | _ <;>
          refine ⟨?_, ?_, ?_⟩ <;>
            simp [perform, performSuccessTail, c4ExpectedTerminals, nowTerminals,
              nowStatuses, hsucc, hcb, ho, successTxStatus, pendingTxStatus]
      · rcases sr with e | u
        · refine ⟨?_, ?_, ?_⟩ <;>
            simp [perform, c4ExpectedTerminals, nowTerminals, nowStatuses, onHandleError,
              hsucc, hcb, errorTxStatus, pendingTxStatus, List.isEmpty_iff,
              jsOrStr_fallback_ne]
        · rcases ho : opts.getD false with _ | _ <;>
            refine ⟨?_, ?_, ?_⟩ <;>
              simp [perform, performSuccessTail, c4ExpectedTerminals, nowTerminals,
                nowStatuses, hsucc, hcb, ho, successTxStatus, pendingTxStatus]

/-! ## handleTx branch lemmas -/

theorem hH_noswitch (w : World) (a : HArgs)
    (heq : (a.configChainId == a.chainID) = true) :
    handleTxH w a = withFinally a.statusHandler a.shouldResetStatus
      (hTryH w a (emitS a.statusHandler pendingUpd)) := by
  have h : a.configChainId = a.chainID := by simpa using heq
  simp [handleTxH, heq, hAssertTryH, h]

theorem hH_switch_err (w : World) (a : HArgs) (e : Err)
    (hne : (a.configChainId == a.chainID) = false) (hs : w.switchResult = .error e) :
    handleTxH w a = (.ok ⟨false, none, some e⟩,
      emitS a.statusHandler pendingUpd ++ [.switch a.chainID]
        ++ (if e.isBase then emitS a.statusHandler (errorUpd switchErrMsg) else [])) := by
  rcases hb : e.isBase with _ | _ <;> simp [handleTxH, hne, hs, hb]

theorem hH_switch_ok (w : World) (a : HArgs)
    (hne : (a.configChainId == a.chainID) = false) (hs : w.switchResult = .ok ()) :
    handleTxH w a = withFinally a.statusHandler a.shouldResetStatus
      (hTryH w a (emitS a.statusHandler pendingUpd ++ [.switch a.chainID])) := by
  simp [handleTxH, hne, hs, hAssertTryH]

theorem hTryH_simerr (w : World) (a : HArgs) (tr : List TxEvent) (e : Err)
    (hsim : w.simulateResult = .error e) :
    hTryH w a tr = hCatchH a (tr ++ [.sim]) e := by
  simp [hTryH, hsim]

theorem hTryH_writeerr (w : World) (a : HArgs) (tr : List TxEvent) (r : Nat) (e : Err)
    (hsim : w.simulateResult = .ok r) (hw : w.writeResult r = .error e) :
    hTryH w a tr = hCatchH a (tr ++ [.sim, .write r]) e := by
  simp [hTryH, hsim, hw]

theorem hTryH_waiterr (w : World) (a : HArgs) (tr : List TxEvent) (r txh : Nat) (e : Err)
    (hsim : w.simulateResult = .ok r) (hw : w.writeResult r = .ok txh)
    (hwt : w.waitResult txh = .error e) :
    hTryH w a tr = hCatchH a (tr ++ [.sim, .write r, .wait txh]) e := by
  simp [hTryH, hsim, hw, hwt]

theorem hTryH_ok (w : World) (a : HArgs) (tr : List TxEvent) (r txh : Nat)
    (rec : TransactionReceipt)
    (hsim : w.simulateResult = .ok r) (hw : w.writeResult r = .ok txh)
    (hwt : w.waitResult txh = .ok rec) :
    hTryH w a tr = (.ok ⟨rec.status == .success, some rec, none⟩,
      tr ++ [.sim, .write r, .wait txh]
        ++ (if rec.status == .success then emitS a.statusHandler successUpd
            else emitS a.statusHandler (errorUpd revertedMsg))) := by
  rcases hst : rec.status with _ | _ <;> simp [hTryH, hsim, hw, hwt, hst]

theorem withFinally_fst (handler : Bool) (rs : Option Bool)
    (x : Except Err TTxResponse × List TxEvent) :
    (withFinally handler rs x).1 = x.1 := by
  unfold withFinally
  split <;> rfl

theorem hCatchH_fst (a : HArgs) (tr : List TxEvent) (e : Err) :
    (hCatchH a tr e).1 = .ok ⟨false, none, some e⟩ := by
  unfold hCatchH
  split <;> rfl

theorem hT_invalid (hash : List Char → Nat → Bool) (w : World) (a : TArgs) (p : TProps)
    (hinv : (!a.hasConfig || addrFalsy p.address || !a.hasConnector) = true) :
    handleTxT hash w a p = (.ok ⟨false, none, some (plainErr invalidMsg)⟩, []) := by
  simp [handleTxT, hinv]

theorem hT_noswitch (hash : List Char → Nat → Bool) (w : World) (a : TArgs) (p : TProps)
    (hval : (!a.hasConfig || addrFalsy p.address || !a.hasConnector) = false)
    (heq : (a.connectorChainId == a.chainID) = true) :
    handleTxT hash w a p
      = tAssertTryT hash w a p a.connectorChainId (emitS a.statusHandler pendingUpd) := by
  simp [handleTxT, hval, heq]

theorem hT_switch_err (hash : List Char → Nat → Bool) (w : World) (a : TArgs) (p : TProps)
    (e : Err)
    (hval : (!a.hasConfig || addrFalsy p.address || !a.hasConnector) = false)
    (hne : (a.connectorChainId == a.chainID) = false) (hs : w.switchResult = .error e) :
    handleTxT hash w a p = (.ok ⟨false, none, some e⟩,
      emitS a.statusHandler pendingUpd ++ [.switch a.chainID]
        ++ (if e.isBase then emitS a.statusHandler errorUpdBare else [])) := by
  rcases hb : e.isBase with _ | _ <;> simp [handleTxT, hval, hne, hs, hb]

theorem hT_switch_ok (hash : List Char → Nat → Bool) (w : World) (a : TArgs) (p : TProps)
    (hval : (!a.hasConfig || addrFalsy p.address || !a.hasConnector) = false)
    (hne : (a.connectorChainId == a.chainID) = false) (hs : w.switchResult = .ok ()) :
    ∃ e, handleTxT hash w a p
      = (.error e, emitS a.statusHandler pendingUpd ++ [.switch a.chainID]) := by
  rcases hA : assertAddressE hash p.address contractAddressName with e | u
  · exact ⟨e, by simp [handleTxT, hval, hne, hs, tAssertTryT, hA]⟩
  · refine ⟨plainErr mismatchMsg, ?_⟩
    have hb : (a.connectorChainId != a.chainID) = true := by simp [bne, hne]
    simp [handleTxT, hval, hne, hs, tAssertTryT, hA, hb]

theorem tTryT_simerr (w : World) (a : TArgs) (tr : List TxEvent) (e : Err)
    (hsim : w.simulateResult = .error e) :
    tTryT w a tr = tCatchT a (tr ++ [.sim]) e := by
  simp [tTryT, hsim]

theorem tTryT_writeerr (w : World) (a : TArgs) (tr : List TxEvent) (r : Nat) (e : Err)
    (hsim : w.simulateResult = .ok r) (hw : w.writeResult r = .error e) :
    tTryT w a tr = tCatchT a (tr ++ [.sim, .write r]) e := by
  simp [tTryT, hsim, hw]

theorem tTryT_waiterr (w : World) (a : TArgs) (tr : List TxEvent) (r txh : Nat) (e : Err)
    (hsim : w.simulateResult = .ok r) (hw : w.writeResult r = .ok txh)
    (hwt : w.waitResult txh = .error e) :
    tTryT w a tr = tCatchT a (tr ++ [.sim, .write r, .wait txh]) e := by
  simp [tTryT, hsim, hw, hwt]

theorem tTryT_ok (w : World) (a : TArgs) (tr : List TxEvent) (r txh : Nat)
    (rec : TransactionReceipt)
    (hsim : w.simulateResult = .ok r) (hw : w.writeResult r = .ok txh)
    (hwt : w.waitResult txh = .ok rec) :
    tTryT w a tr = (.ok ⟨rec.status == .success, some rec, none⟩,
      tr ++ [.sim, .write r, .wait txh]
        ++ (if rec.status == .success then emitS a.statusHandler successUpd
            else emitS a.statusHandler errorUpdBare)) := by
  rcases hst : rec.status with _ | _ <;> simp [tTryT, hsim, hw, hwt, hst]

theorem tAssertTryT_ok (hash : List Char → Nat → Bool) (w : World) (a : TArgs)
    (p : TProps) (tr : List TxEvent) (u : Unit)
    (hA : assertAddressE hash p.address contractAddressName = .ok u)
    (heq : (a.connectorChainId == a.chainID) = true) :
    tAssertTryT hash w a p a.connectorChainId tr
      = withFinally a.statusHandler a.shouldResetStatus (tTryT w a tr) := by
  have h : a.connectorChainId = a.chainID := by simpa using heq
  simp [tAssertTryT, hA, h]

theorem tAssertTryT_addrfail (hash : List Char → Nat → Bool) (w : World) (a : TArgs)
    (p : TProps) (tr : List TxEvent) (chainID : Nat) (e : Err)
    (hA : assertAddressE hash p.address contractAddressName = .error e) :
    tAssertTryT hash w a p chainID tr = (.error e, tr) := by
  simp [tAssertTryT, hA]

/-! ## Trace computation lemmas -/

theorem opsOf_append (l1 l2 : List TxEvent) : opsOf (l1 ++ l2) = opsOf l1 ++ opsOf l2 :=
  List.filter_append l1 l2

theorem opsOf_emitS (b : Bool) (s : TTxStatus) : opsOf (emitS b s) = [] := by
  cases b <;> rfl

theorem opsOf_emitD (b : Bool) (s : TTxStatus) : opsOf (emitD b s) = [] := by
  cases b <;> rfl

theorem statusesOf_append (l1 l2 : List TxEvent) :
    statusesOf (l1 ++ l2) = statusesOf l1 ++ statusesOf l2 :=
  List.filterMap_append l1 l2 _

theorem statusesOf_emitD (b : Bool) (s : TTxStatus) : statusesOf (emitD b s) = [] := by
  cases b <;> rfl

theorem opsOf_withFinally (h : Bool) (r : Option Bool)
    (x : Except Err TTxResponse × List TxEvent) :
    opsOf (withFinally h r x).2 = opsOf x.2 := by
  unfold withFinally
  split
  · simp [opsOf_append, opsOf_emitD]
  · rfl

theorem opsOf_hCatchH (a : HArgs) (tr : List TxEvent) (e : Err) :
    opsOf (hCatchH a tr e).2 = opsOf tr := by
  unfold hCatchH
  split
  · rfl
  · simp [opsOf_append, opsOf_emitS]

theorem opsOf_tCatchT (a : TArgs) (tr : List TxEvent) (e : Err) :
    opsOf (tCatchT a tr e).2 = opsOf tr := by
  unfold tCatchT
  split
  · rfl
  · split
    · split
      · rfl
      · simp [opsOf_append, opsOf_emitS]
    · simp [opsOf_append, opsOf_emitS]

theorem takeWhile_append_all (p : TxEvent → Bool) (xs ys : List TxEvent)
    (h : ∀ x ∈ xs, p x = true) :
    (xs ++ ys).takeWhile p = xs ++ ys.takeWhile p := by
  induction xs with
  | nil => rfl
  | cons x xs ih =>
    simp only [List.cons_append, List.takeWhile_cons, h x (List.mem_cons_self x xs)]
    rw [ih (fun y hy => h y (List.mem_cons_of_mem x hy))]
    simp

theorem afterLastOp_append (l : List TxEvent) (e : TxEvent) (rest : List TxEvent)
    (he : isOpEvent e = true) (hrest : ∀ x ∈ rest, isOpEvent x = false) :
    afterLastOp (l ++ e :: rest) = rest := by
  unfold afterLastOp
  rw [List.reverse_append, List.reverse_cons]
  rw [List.append_assoc]
  rw [takeWhile_append_all _ rest.reverse _
    (fun x hx => by simp [hrest x (List.mem_reverse.mp hx)])]
  simp [List.takeWhile_cons, he]

theorem withFinally_snd (h : Bool) (rs : Option Bool)
    (x : Except Err TTxResponse × List TxEvent) :
    (withFinally h rs x).2 = x.2 ++ (if rs.getD true then emitD h defaultTxStatus else []) := by
  unfold withFinally
  split <;> simp_all

theorem emitS_not_op (b : Bool) (s : TTxStatus) :
    ∀ x ∈ emitS b s, isOpEvent x = false := by
  cases b <;> simp [emitS, isOpEvent]

theorem emitD_not_op (b : Bool) (s : TTxStatus) :
    ∀ x ∈ emitD b s, isOpEvent x = false := by
  cases b <;> simp [emitD, isOpEvent]

theorem finallyTail_not_op (b : Bool) (c : Bool) :
    ∀ x ∈ (if c then emitD b defaultTxStatus else []), isOpEvent x = false := by
  cases c
  · simp
  · simpa using emitD_not_op b defaultTxStatus

theorem statusesOf_finallyTail (b : Bool) (c : Bool) :
    statusesOf (if c then emitD b defaultTxStatus else []) = [] := by
  cases c
  · rfl
  · exact statusesOf_emitD b defaultTxStatus

theorem opsOf_statusPair (b : Bool) (c : Bool) (s1 s2 : TTxStatus) :
    opsOf (if c then emitS b s1 else emitS b s2) = [] := by
  split <;> exact opsOf_emitS b _

theorem statusPair_not_op (b : Bool) (c : Bool) (s1 s2 : TTxStatus) :
    ∀ x ∈ (if c then emitS b s1 else emitS b s2), isOpEvent x = false := by
  split <;> exact emitS_not_op b _

theorem statusesOf_statusPair (c : Bool) (s1 s2 : TTxStatus) :
    statusesOf (if c then emitS true s1 else emitS true s2)
      = [if c then s1 else s2] := by
  split <;> simp [emitS, statusesOf]

/-- The spec's sequential-order properties for the shared
simulate → write → wait → status part, given a prefix trace whose operations
`swOps` are at most one switch event. -/
theorem c1_tryH_props (w : World) (a : HArgs) (pre swOps : List TxEvent)
    (hpre : opsOf pre = swOps)
    (hsw : swOps = [] ∨ swOps = [TxEvent.switch a.chainID]) :
    OrderedOps (opsOf (withFinally a.statusHandler a.shouldResetStatus (hTryH w a pre)).2)
    ∧ (∀ r, TxEvent.write r ∈ opsOf (withFinally a.statusHandler a.shouldResetStatus (hTryH w a pre)).2 →
        w.simulateResult = .ok r)
    ∧ (∀ txh, TxEvent.wait txh ∈ opsOf (withFinally a.statusHandler a.shouldResetStatus (hTryH w a pre)).2 →
        ∃ r, w.simulateResult = .ok r ∧ w.writeResult r = .ok txh)
    ∧ (∀ c, TxEvent.switch c ∈ opsOf (withFinally a.statusHandler a.shouldResetStatus (hTryH w a pre)).2 →
        TxEvent.switch c ∈ swOps)
    ∧ (a.statusHandler = true →
        ∀ txh rec, TxEvent.wait txh ∈ opsOf (withFinally a.statusHandler a.shouldResetStatus (hTryH w a pre)).2 →
        w.waitResult txh = .ok rec →
        ∃ s, statusesOf (afterLastOp (withFinally a.statusHandler a.shouldResetStatus (hTryH w a pre)).2) = [s]) := by
  rcases hsim : w.simulateResult with e | r
  · rw [hTryH_simerr w a pre e hsim]
    have hops : opsOf (withFinally a.statusHandler a.shouldResetStatus
        (hCatchH a (pre ++ [.sim]) e)).2 = swOps ++ [.sim] := by
      rw [opsOf_withFinally, opsOf_hCatchH, opsOf_append, hpre]
      rfl
    refine ⟨?_, ?_, ?_, ?_, ?_⟩
    · rw [hops]
      rcases hsw with h | h <;> subst h <;>
        simp [OrderedOps, opIdx, List.pairwise_cons]
    · intro r hr
      rw [hops] at hr
      rcases hsw with h | h <;> subst h <;> simp at hr
    · intro txh hw
      rw [hops] at hw
      rcases hsw with h | h <;> subst h <;> simp at hw
    · intro c hc
      rw [hops] at hc
      rcases List.mem_append.mp hc with hc | hc
      · exact hc
      · simp at hc
    · intro _ txh rec hw _
      rw [hops] at hw
      rcases hsw with h | h <;> subst h <;> simp at hw
  · rcases hw : w.writeResult r with e | txh
    · rw [hTryH_writeerr w a pre r e hsim hw]
      have hops : opsOf (withFinally a.statusHandler a.shouldResetStatus
          (hCatchH a (pre ++ [.sim, .write r]) e)).2 = swOps ++ [.sim, .write r] := by
        rw [opsOf_withFinally, opsOf_hCatchH, opsOf_append, hpre]
        rfl
      refine ⟨?_, ?_, ?_, ?_, ?_⟩
      · rw [hops]
        rcases hsw with h | h <;> subst h <;>
          simp [OrderedOps, opIdx, List.pairwise_cons]
      · intro r2 hr
        rw [hops] at hr
        have hr2 : r2 = r := by
          rcases hsw with h | h <;> subst h <;> simp at hr <;> omega
        subst hr2
        rfl
      · intro txh hwt
        rw [hops] at hwt
        rcases hsw with h | h <;> subst h <;> simp at hwt
      · intro c hc
        rw [hops] at hc
        rcases List.mem_append.mp hc with hc | hc
        · exact hc
        · simp at hc
      · intro _ txh rec hwt _
        rw [hops] at hwt
        rcases hsw with h | h <;> subst h <;> simp at hwt
    · rcases hwt : w.waitResult txh with e | rec
      · rw [hTryH_waiterr w a pre r txh e hsim hw hwt]
        have hops : opsOf (withFinally a.statusHandler a.shouldResetStatus
            (hCatchH a (pre ++ [.sim, .write r, .wait txh]) e)).2
            = swOps ++ [.sim, .write r, .wait txh] := by
          rw [opsOf_withFinally, opsOf_hCatchH, opsOf_append, hpre]
          rfl
        refine ⟨?_, ?_, ?_, ?_, ?_⟩
        · rw [hops]
          rcases hsw with h | h <;> subst h <;>
            simp [OrderedOps, opIdx, List.pairwise_cons]
        · intro r2 hr
          rw [hops] at hr
          have hr2 : r2 = r := by
            rcases hsw with h | h <;> subst h <;> simp at hr <;> omega
          subst hr2
          rfl
        · intro txh2 hwm
          rw [hops] at hwm
          have ht2 : txh2 = txh := by
            rcases hsw with h | h <;> subst h <;> simp at hwm <;> omega
          subst ht2
          exact ⟨r, rfl, hw⟩
        · intro c hc
          rw [hops] at hc
          rcases List.mem_append.mp hc with hc | hc
          · exact hc
          · simp at hc
        · intro _ txh2 rec hwm hwr
          rw [hops] at hwm
          have ht2 : txh2 = txh := by
            rcases hsw with h | h <;> subst h <;> simp at hwm <;> omega
          subst ht2
          rw [hwt] at hwr
          exact absurd hwr (by simp)
      · rw [hTryH_ok w a pre r txh rec hsim hw hwt]
        have hops : opsOf (withFinally a.statusHandler a.shouldResetStatus
            (⟨.ok ⟨rec.status == .success, some rec, none⟩,
              pre ++ [.sim, .write r, .wait txh]
                ++ (if rec.status == .success then emitS a.statusHandler successUpd
                    else emitS a.statusHandler (errorUpd revertedMsg))⟩ :
              Except Err TTxResponse × List TxEvent)).2
            = swOps ++ [.sim, .write r, .wait txh] := by
          rw [opsOf_withFinally]
          show opsOf (pre ++ [.sim, .write r, .wait txh] ++ _) = _
          rw [opsOf_append, opsOf_append, hpre, opsOf_statusPair]
          simp [opsOf, isOpEvent]
        refine ⟨?_, ?_, ?_, ?_, ?_⟩
        · rw [hops]
          rcases hsw with h | h <;> subst h <;>
            simp [OrderedOps, opIdx, List.pairwise_cons]
        · intro r2 hr
          rw [hops] at hr
          have hr2 : r2 = r := by
            rcases hsw with h | h <;> subst h <;> simp at hr <;> omega
          subst hr2
          rfl
        · intro txh2 hwm
          rw [hops] at hwm
          have ht2 : txh2 = txh := by
            rcases hsw with h | h <;> subst h <;> simp at hwm <;> omega
          subst ht2
          exact ⟨r, rfl, hw⟩
        · intro c hc
          rw [hops] at hc
          rcases List.mem_append.mp hc with hc | hc
          · exact hc
          · simp at hc
        · intro hh txh2 rec2 hwm hwr
          rw [withFinally_snd]
          have htr : pre ++ [TxEvent.sim, .write r, .wait txh]
                ++ (if rec.status == .success then emitS a.statusHandler successUpd
                    else emitS a.statusHandler (errorUpd revertedMsg))
                ++ (if a.shouldResetStatus.getD true then emitD a.statusHandler defaultTxStatus else [])
              = (pre ++ [TxEvent.sim, .write r]) ++ TxEvent.wait txh ::
                ((if rec.status == .success then emitS a.statusHandler successUpd
                    else emitS a.statusHandler (errorUpd revertedMsg))
                  ++ (if a.shouldResetStatus.getD true then emitD a.statusHandler defaultTxStatus else [])) := by
            simp
          have hrest : ∀ x ∈ ((if (rec.status == RStatus.success) = true
                then emitS a.statusHandler successUpd
                else emitS a.statusHandler (errorUpd revertedMsg))
              ++ (if a.shouldResetStatus.getD true = true
                then emitD a.statusHandler defaultTxStatus else [])),
              isOpEvent x = false := by
            intro x hx
            rcases List.mem_append.mp hx with hx | hx
            · exact statusPair_not_op a.statusHandler _ _ _ x hx
            · exact finallyTail_not_op a.statusHandler _ x hx
          rw [htr, afterLastOp_append (pre ++ [TxEvent.sim, TxEvent.write r])
            (TxEvent.wait txh) _ (by rfl) hrest]
          rw [statusesOf_append, statusesOf_finallyTail, hh, statusesOf_statusPair]
          exact ⟨_, rfl⟩

/-- The five-step order properties for handleTx.ts's `handleTx`. -/
theorem c1H_props (w : World) (a : HArgs) :
    OrderedOps (opsOf (handleTxH w a).2)
    ∧ (∀ c, TxEvent.switch c ∈ opsOf (handleTxH w a).2 →
        (a.configChainId == a.chainID) = false)
    ∧ (TxEvent.sim ∈ opsOf (handleTxH w a).2 →
        (a.configChainId == a.chainID) = false → w.switchResult = .ok ())
    ∧ (∀ r, TxEvent.write r ∈ opsOf (handleTxH w a).2 → w.simulateResult = .ok r)
    ∧ (∀ txh, TxEvent.wait txh ∈ opsOf (handleTxH w a).2 →
        ∃ r, w.simulateResult = .ok r ∧ w.writeResult r = .ok txh)
    ∧ (a.statusHandler = true → ∀ txh rec, TxEvent.wait txh ∈ opsOf (handleTxH w a).2 →
        w.waitResult txh = .ok rec →
        ∃ s, statusesOf (afterLastOp (handleTxH w a).2) = [s]) := by
  by_cases hcfg : (a.configChainId == a.chainID) = true
  · rw [hH_noswitch w a hcfg]
    obtain ⟨h1, h4, h5, h2, h6⟩ := c1_tryH_props w a (emitS a.statusHandler pendingUpd) []
      (opsOf_emitS _ _) (Or.inl rfl)
    refine ⟨h1, ?_, ?_, h4, h5, h6⟩
    · intro c hc
      have := h2 c hc
      simp at this
    · intro _ hne
      rw [hcfg] at hne
      exact absurd hne (by simp)
  · have hcfg2 : (a.configChainId == a.chainID) = false := by
      simpa using hcfg
    rcases hs : w.switchResult with e | u
    · rw [hH_switch_err w a e hcfg2 hs]
      have hops : opsOf (emitS a.statusHandler pendingUpd ++ [TxEvent.switch a.chainID]
          ++ (if e.isBase then emitS a.statusHandler (errorUpd switchErrMsg) else []))
          = [TxEvent.switch a.chainID] := by
        rw [opsOf_append, opsOf_append, opsOf_emitS]
        have h2 : opsOf (if e.isBase then emitS a.statusHandler (errorUpd switchErrMsg)
            else []) = [] := by
          split
          · exact opsOf_emitS _ _
          · rfl
        rw [h2]
        rfl
      refine ⟨?_, ?_, ?_, ?_, ?_, ?_⟩
      · rw [hops]
        simp [OrderedOps]
      · intro c _
        exact hcfg2
      · intro hc
        rw [hops] at hc
        simp at hc
      · intro r hr
        rw [hops] at hr
        simp at hr
      · intro txh hwm
        rw [hops] at hwm
        simp at hwm
      · intro _ txh rec hwm _
        rw [hops] at hwm
        simp at hwm
    · cases u
      rw [hH_switch_ok w a hcfg2 hs]
      obtain ⟨h1, h4, h5, h2, h6⟩ := c1_tryH_props w a
        (emitS a.statusHandler pendingUpd ++ [TxEvent.switch a.chainID])
        [TxEvent.switch a.chainID]
        (by rw [opsOf_append, opsOf_emitS]; rfl) (Or.inr rfl)
      refine ⟨h1, ?_, ?_, h4, h5, h6⟩
      · intro c _
        exact hcfg2
      · intro _ _
        rfl

/-- The spec's sequential-order properties for the tools.transactions.ts
`try` block (only reachable when no chain switch was needed, so the prefix
trace carries no operations). -/
theorem c1_tryT_props (w : World) (a : TArgs) (pre : List TxEvent)
    (hpre : opsOf pre = []) :
    OrderedOps (opsOf (withFinally a.statusHandler a.shouldResetStatus (tTryT w a pre)).2)
    ∧ (∀ c, TxEvent.switch c ∉ opsOf (withFinally a.statusHandler a.shouldResetStatus (tTryT w a pre)).2)
    ∧ (∀ r, TxEvent.write r ∈ opsOf (withFinally a.statusHandler a.shouldResetStatus (tTryT w a pre)).2 →
        w.simulateResult = .ok r)
    ∧ (∀ txh, TxEvent.wait txh ∈ opsOf (withFinally a.statusHandler a.shouldResetStatus (tTryT w a pre)).2 →
        ∃ r, w.simulateResult = .ok r ∧ w.writeResult r = .ok txh)
    ∧ (a.statusHandler = true →
        ∀ txh rec, TxEvent.wait txh ∈ opsOf (withFinally a.statusHandler a.shouldResetStatus (tTryT w a pre)).2 →
        w.waitResult txh = .ok rec →
        ∃ s, statusesOf (afterLastOp (withFinally a.statusHandler a.shouldResetStatus (tTryT w a pre)).2) = [s]) := by
  rcases hsim : w.simulateResult with e | r
  · rw [tTryT_simerr w a pre e hsim]
    have hops : opsOf (withFinally a.statusHandler a.shouldResetStatus
        (tCatchT a (pre ++ [.sim]) e)).2 = [.sim] := by
      rw [opsOf_withFinally, opsOf_tCatchT, opsOf_append, hpre]
      rfl
    refine ⟨?_, ?_, ?_, ?_, ?_⟩
    · rw [hops]; simp [OrderedOps]
    · intro c hc
      rw [hops] at hc
      simp at hc
    · intro r hr
      rw [hops] at hr
      simp at hr
    · intro txh hwm
      rw [hops] at hwm
      simp at hwm
    · intro _ txh rec hwm _
      rw [hops] at hwm
      simp at hwm
  · rcases hw : w.writeResult r with e | txh
    · rw [tTryT_writeerr w a pre r e hsim hw]
      have hops : opsOf (withFinally a.statusHandler a.shouldResetStatus
          (tCatchT a (pre ++ [.sim, .write r]) e)).2 = [.sim, .write r] := by
        rw [opsOf_withFinally, opsOf_tCatchT, opsOf_append, hpre]
        rfl
      refine ⟨?_, ?_, ?_, ?_, ?_⟩
      · rw [hops]; simp [OrderedOps, opIdx, List.pairwise_cons]
      · intro c hc
        rw [hops] at hc
        simp at hc
      · intro r2 hr
        rw [hops] at hr
        have hr2 : r2 = r := by simp at hr; omega
        subst hr2
        rfl
      · intro txh hwm
        rw [hops] at hwm
        simp at hwm
      · intro _ txh rec hwm _
        rw [hops] at hwm
        simp at hwm
    · rcases hwt : w.waitResult txh with e | rec
      · rw [tTryT_waiterr w a pre r txh e hsim hw hwt]
        have hops : opsOf (withFinally a.statusHandler a.shouldResetStatus
            (tCatchT a (pre ++ [.sim, .write r, .wait txh]) e)).2
            = [.sim, .write r, .wait txh] := by
          rw [opsOf_withFinally, opsOf_tCatchT, opsOf_append, hpre]
          rfl
        refine ⟨?_, ?_, ?_, ?_, ?_⟩
        · rw [hops]; simp [OrderedOps, opIdx, List.pairwise_cons]
        · intro c hc
          rw [hops] at hc
          simp at hc
        · intro r2 hr
          rw [hops] at hr
          have hr2 : r2 = r := by simp at hr; omega
          subst hr2
          rfl
        · intro txh2 hwm
          rw [hops] at hwm
          have ht2 : txh2 = txh := by simp at hwm; omega
          subst ht2
          exact ⟨r, rfl, hw⟩
        · intro _ txh2 rec hwm hwr
          rw [hops] at hwm
          have ht2 : txh2 = txh := by simp at hwm; omega
          subst ht2
          rw [hwt] at hwr
          exact absurd hwr (by simp)
      · rw [tTryT_ok w a pre r txh rec hsim hw hwt]
        have hops : opsOf (withFinally a.statusHandler a.shouldResetStatus
            (⟨.ok ⟨rec.status == .success, some rec, none⟩,
              pre ++ [.sim, .write r, .wait txh]
                ++ (if rec.status == .success then emitS a.statusHandler successUpd
                    else emitS a.statusHandler errorUpdBare)⟩ :
              Except Err TTxResponse × List TxEvent)).2
            = [.sim, .write r, .wait txh] := by
          rw [opsOf_withFinally]
          show opsOf (pre ++ [.sim, .write r, .wait txh] ++ _) = _
          rw [opsOf_append, opsOf_append, hpre, opsOf_statusPair]
          simp [opsOf, isOpEvent]
        refine ⟨?_, ?_, ?_, ?_, ?_⟩
        · rw [hops]; simp [OrderedOps, opIdx, List.pairwise_cons]
        · intro c hc
          rw [hops] at hc
          simp at hc
        · intro r2 hr
          rw [hops] at hr
          have hr2 : r2 = r := by simp at hr; omega
          subst hr2
          rfl
        · intro txh2 hwm
          rw [hops] at hwm
          have ht2 : txh2 = txh := by simp at hwm; omega
          subst ht2
          exact ⟨r, rfl, hw⟩
        · intro hh txh2 rec2 hwm hwr
          rw [withFinally_snd]
          have hrest : ∀ x ∈ ((if (rec.status == RStatus.success) = true
                then emitS a.statusHandler successUpd
                else emitS a.statusHandler errorUpdBare)
              ++ (if a.shouldResetStatus.getD true = true
                then emitD a.statusHandler defaultTxStatus else [])),
              isOpEvent x = false := by
            intro x hx
            rcases List.mem_append.mp hx with hx | hx
            · exact statusPair_not_op a.statusHandler _ _ _ x hx
            · exact finallyTail_not_op a.statusHandler _ x hx
          have htr : pre ++ [TxEvent.sim, .write r, .wait txh]
                ++ (if rec.status == .success then emitS a.statusHandler successUpd
                    else emitS a.statusHandler errorUpdBare)
                ++ (if a.shouldResetStatus.getD true then emitD a.statusHandler defaultTxStatus else [])
              = (pre ++ [TxEvent.sim, .write r]) ++ TxEvent.wait txh ::
                ((if rec.status == .success then emitS a.statusHandler successUpd
                    else emitS a.statusHandler errorUpdBare)
                  ++ (if a.shouldResetStatus.getD true then emitD a.statusHandler defaultTxStatus else [])) := by
            simp
          rw [htr, afterLastOp_append (pre ++ [TxEvent.sim, TxEvent.write r])
            (TxEvent.wait txh) _ (by rfl) hrest]
          rw [statusesOf_append, statusesOf_finallyTail, hh, statusesOf_statusPair]
          exact ⟨_, rfl⟩

/-- The five-step order properties for the tools.transactions.ts `handleTx`. -/
theorem c1T_props (hash : List Char → Nat → Bool) (w : World) (a : TArgs) (p : TProps) :
    OrderedOps (opsOf (handleTxT hash w a p).2)
    ∧ (∀ c, TxEvent.switch c ∈ opsOf (handleTxT hash w a p).2 →
        (a.connectorChainId == a.chainID) = false)
    ∧ (TxEvent.sim ∈ opsOf (handleTxT hash w a p).2 →
        (a.connectorChainId == a.chainID) = false → w.switchResult = .ok ())
    ∧ (∀ r, TxEvent.write r ∈ opsOf (handleTxT hash w a p).2 → w.simulateResult = .ok r)
    ∧ (∀ txh, TxEvent.wait txh ∈ opsOf (handleTxT hash w a p).2 →
        ∃ r, w.simulateResult = .ok r ∧ w.writeResult r = .ok txh)
    ∧ (a.statusHandler = true → ∀ txh rec, TxEvent.wait txh ∈ opsOf (handleTxT hash w a p).2 →
        w.waitResult txh = .ok rec →
        ∃ s, statusesOf (afterLastOp (handleTxT hash w a p).2) = [s]) := by
  by_cases hval : (!a.hasConfig || addrFalsy p.address || !a.hasConnector) = true
  · rw [hT_invalid hash w a p hval]
    refine ⟨?_, ?_, ?_, ?_, ?_, ?_⟩
    · exact List.Pairwise.nil
    · intro c hc; simp [opsOf] at hc
    · intro hc; simp [opsOf] at hc
    · intro r hr; simp [opsOf] at hr
    · intro txh hwm; simp [opsOf] at hwm
    · intro _ txh rec hwm _; simp [opsOf] at hwm
  · have hval2 : (!a.hasConfig || addrFalsy p.address || !a.hasConnector) = false := by
      simpa using hval
    by_cases heq : (a.connectorChainId == a.chainID) = true
    · rw [hT_noswitch hash w a p hval2 heq]
      rcases hA : assertAddressE hash p.address contractAddressName with e | u
      · rw [tAssertTryT_addrfail hash w a p _ _ e hA]
        have hops : opsOf (emitS a.statusHandler pendingUpd) = [] := opsOf_emitS _ _
        refine ⟨?_, ?_, ?_, ?_, ?_, ?_⟩
        · show OrderedOps (opsOf (emitS a.statusHandler pendingUpd))
          rw [hops]
          exact List.Pairwise.nil
        · intro c hc; rw [hops] at hc; simp at hc
        · intro hc _; rw [hops] at hc; simp at hc
        · intro r hr; rw [hops] at hr; simp at hr
        · intro txh hwm; rw [hops] at hwm; simp at hwm
        · intro _ txh rec hwm _; rw [hops] at hwm; simp at hwm
      · rw [tAssertTryT_ok hash w a p _ u hA heq]
        obtain ⟨h1, h2, h4, h5, h6⟩ := c1_tryT_props w a (emitS a.statusHandler pendingUpd)
          (opsOf_emitS _ _)
        refine ⟨h1, ?_, ?_, h4, h5, h6⟩
        · intro c hc
          exact absurd hc (h2 c)
        · intro _ hne
          rw [heq] at hne
          exact absurd hne (by simp)
    · have hne : (a.connectorChainId == a.chainID) = false := by simpa using heq
      rcases hs : w.switchResult with e | u
      · rw [hT_switch_err hash w a p e hval2 hne hs]
        have hops : opsOf (emitS a.statusHandler pendingUpd ++ [TxEvent.switch a.chainID]
            ++ (if e.isBase then emitS a.statusHandler errorUpdBare else []))
            = [TxEvent.switch a.chainID] := by
          rw [opsOf_append, opsOf_append, opsOf_emitS]
          have h2 : opsOf (if e.isBase then emitS a.statusHandler errorUpdBare else []) = [] := by
            split
            · exact opsOf_emitS _ _
            · rfl
          rw [h2]
          rfl
        refine ⟨?_, ?_, ?_, ?_, ?_, ?_⟩
        · rw [hops]; simp [OrderedOps]
        · intro c _; exact hne
        · intro hc; rw [hops] at hc; simp at hc
        · intro r hr; rw [hops] at hr; simp at hr
        · intro txh hwm; rw [hops] at hwm; simp at hwm
        · intro _ txh rec hwm _; rw [hops] at hwm; simp at hwm
      · cases u
        obtain ⟨e, he⟩ := hT_switch_ok hash w a p hval2 hne (by rw [hs])
        rw [he]
        have hops : opsOf (emitS a.statusHandler pendingUpd ++ [TxEvent.switch a.chainID])
            = [TxEvent.switch a.chainID] := by
          rw [opsOf_append, opsOf_emitS]
          rfl
        refine ⟨?_, ?_, ?_, ?_, ?_, ?_⟩
        · rw [hops]; simp [OrderedOps]
        · intro c _; exact hne
        · intro hc; rw [hops] at hc; simp at hc
        · intro r hr; rw [hops] at hr; simp at hr
        · intro txh hwm; rw [hops] at hwm; simp at hwm
        · intro _ txh rec hwm _; rw [hops] at hwm; simp at hwm

/-- C1: in both `handleTx` variants the underlying operations occur in the
fixed order switch → simulate → write → wait (each at most once, strictly in
workflow order); the switch is performed only when the active chain differs
from `args.chainID`; the simulation runs only if a needed switch completed
successfully; `writeContract` is applied exactly to the request returned by
`simulateContract`; `waitForTransactionReceipt` waits exactly on the hash
returned by `writeContract`; and when the receipt arrives (and a status
handler is installed) the concluding UI status update is emitted after all
operations. -/
theorem c1_handleTx_sequential_order (w : World) (a : HArgs)
    (hash : List Char → Nat → Bool) (w2 : World) (a2 : TArgs) (p2 : TProps) :
    (OrderedOps (opsOf (handleTxH w a).2)
      ∧ (∀ c, TxEvent.switch c ∈ opsOf (handleTxH w a).2 →
          (a.configChainId == a.chainID) = false)
      ∧ (TxEvent.sim ∈ opsOf (handleTxH w a).2 →
          (a.configChainId == a.chainID) = false → w.switchResult = .ok ())
      ∧ (∀ r, TxEvent.write r ∈ opsOf (handleTxH w a).2 → w.simulateResult = .ok r)
      ∧ (∀ txh, TxEvent.wait txh ∈ opsOf (handleTxH w a).2 →
          ∃ r, w.simulateResult = .ok r ∧ w.writeResult r = .ok txh)
      ∧ (a.statusHandler = true → ∀ txh rec, TxEvent.wait txh ∈ opsOf (handleTxH w a).2 →
          w.waitResult txh = .ok rec →
          ∃ s, statusesOf (afterLastOp (handleTxH w a).2) = [s]))
    ∧ (OrderedOps (opsOf (handleTxT hash w2 a2 p2).2)
      ∧ (∀ c, TxEvent.switch c ∈ opsOf (handleTxT hash w2 a2 p2).2 →
          (a2.connectorChainId == a2.chainID) = false)
      ∧ (TxEvent.sim ∈ opsOf (handleTxT hash w2 a2 p2).2 →
          (a2.connectorChainId == a2.chainID) = false → w2.switchResult = .ok ())
      ∧ (∀ r, TxEvent.write r ∈ opsOf (handleTxT hash w2 a2 p2).2 →
          w2.simulateResult = .ok r)
      ∧ (∀ txh, TxEvent.wait txh ∈ opsOf (handleTxT hash w2 a2 p2).2 →
          ∃ r, w2.simulateResult = .ok r ∧ w2.writeResult r = .ok txh)
      ∧ (a2.statusHandler = true →
          ∀ txh rec, TxEvent.wait txh ∈ opsOf (handleTxT hash w2 a2 p2).2 →
          w2.waitResult txh = .ok rec →
          ∃ s, statusesOf (afterLastOp (handleTxT hash w2 a2 p2).2) = [s])) :=
  ⟨c1H_props w a, c1T_props hash w2 a2 p2⟩

/-- Witness for C1: a concrete fully successful run of handleTx.ts's
`handleTx` (no switch needed, all calls succeed) emits exactly one status
update after its last operation. -/
theorem c1_sequential_order_witness :
    ∃ s, statusesOf (afterLastOp (handleTxH
      ⟨.ok (), .ok 1, fun r => .ok (r + 1), fun h => .ok ⟨.success, h⟩⟩
      ⟨5, 5, true, none, none, none⟩).2) = [s] :=
  (c1_handleTx_sequential_order
    ⟨.ok (), .ok 1, fun r => .ok (r + 1), fun h => .ok ⟨.success, h⟩⟩
    ⟨5, 5, true, none, none, none⟩
    (fun _ _ => false)
    ⟨.ok (), .ok 1, fun r => .ok (r + 1), fun h => .ok ⟨.success, h⟩⟩
    ⟨5, true, true, 5, true, none, none, none, none⟩
    ⟨none, none⟩).1.2.2.2.2.2 rfl 2 ⟨.success, 2⟩ (by decide) rfl

/-- C3: in both `handleTx` variants, when the active chain differs from
`args.chainID` and `switchChain` throws, the call resolves with
`{isSuccessful: false, error}` having performed only the switch — no
simulation, no write, no receipt wait; and when the active chain already
equals `args.chainID`, `switchChain` is never called. -/
theorem c3_switch_chain_behavior (w : World) (a : HArgs) (e : Err)
    (hash : List Char → Nat → Bool) (w2 : World) (a2 : TArgs) (p2 : TProps) (e2 : Err) :
    ((a.configChainId == a.chainID) = false → w.switchResult = .error e →
      (handleTxH w a).1 = .ok ⟨false, none, some e⟩
      ∧ opsOf (handleTxH w a).2 = [.switch a.chainID])
    ∧ ((a.configChainId == a.chainID) = true →
        ∀ c, TxEvent.switch c ∉ opsOf (handleTxH w a).2)
    ∧ ((!a2.hasConfig || addrFalsy p2.address || !a2.hasConnector) = false →
        (a2.connectorChainId == a2.chainID) = false → w2.switchResult = .error e2 →
      (handleTxT hash w2 a2 p2).1 = .ok ⟨false, none, some e2⟩
      ∧ opsOf (handleTxT hash w2 a2 p2).2 = [.switch a2.chainID])
    ∧ ((a2.connectorChainId == a2.chainID) = true →
        ∀ c, TxEvent.switch c ∉ opsOf (handleTxT hash w2 a2 p2).2) := by
  refine ⟨?_, ?_, ?_, ?_⟩
  · intro hne he
    rw [hH_switch_err w a e hne he]
    refine ⟨rfl, ?_⟩
    rw [opsOf_append, opsOf_append, opsOf_emitS]
    have h2 : opsOf (if e.isBase then emitS a.statusHandler (errorUpd switchErrMsg)
        else []) = [] := by
      split
      · exact opsOf_emitS _ _
      · rfl
    rw [h2]
    rfl
  · intro heq c hc
    have h2 := (c1H_props w a).2.1 c hc
    rw [heq] at h2
    exact absurd h2 (by simp)
  · intro hval hne he
    rw [hT_switch_err hash w2 a2 p2 e2 hval hne he]
    refine ⟨rfl, ?_⟩
    rw [opsOf_append, opsOf_append, opsOf_emitS]
    have h2 : opsOf (if e2.isBase then emitS a2.statusHandler errorUpdBare else []) = [] := by
      split
      · exact opsOf_emitS _ _
      · rfl
    rw [h2]
    rfl
  · intro heq c hc
    have h2 := (c1T_props hash w2 a2 p2).2.1 c hc
    rw [heq] at h2
    exact absurd h2 (by simp)

/-- Witness for C3: a concrete run of handleTx.ts's `handleTx` on chain 5
targeting chain 7 whose `switchChain` throws returns the failure response and
performs only the switch. -/
theorem c3_switch_chain_witness :
    (handleTxH ⟨.error ⟨true, "SwitchChainError".toList, "sf".toList, "sf".toList⟩,
        .ok 1, fun r => .ok (r + 1), fun h => .ok ⟨.success, h⟩⟩
      ⟨7, 5, true, none, none, none⟩).1
      = .ok ⟨false, none, some ⟨true, "SwitchChainError".toList, "sf".toList, "sf".toList⟩⟩
    ∧ opsOf (handleTxH ⟨.error ⟨true, "SwitchChainError".toList, "sf".toList, "sf".toList⟩,
        .ok 1, fun r => .ok (r + 1), fun h => .ok ⟨.success, h⟩⟩
      ⟨7, 5, true, none, none, none⟩).2 = [.switch 7] :=
  (c3_switch_chain_behavior
    ⟨.error ⟨true, "SwitchChainError".toList, "sf".toList, "sf".toList⟩,
      .ok 1, fun r => .ok (r + 1), fun h => .ok ⟨.success, h⟩⟩
    ⟨7, 5, true, none, none, none⟩
    ⟨true, "SwitchChainError".toList, "sf".toList, "sf".toList⟩
    (fun _ _ => false)
    ⟨.ok (), .ok 1, fun r => .ok (r + 1), fun h => .ok ⟨.success, h⟩⟩
    ⟨5, true, true, 5, true, none, none, none, none⟩
    ⟨none, none⟩
    ⟨true, [], [], []⟩).1 (by decide) rfl

/-- C9: the tools.transactions.ts `handleTx`, called with a missing config,
falsy contract address, or missing connector, immediately resolves with
`{isSuccessful: false, error}`: the status handler is never invoked (no
pending status) and no chain switch, simulation, write, or receipt wait is
performed (the trace is empty). -/
theorem c9_invalid_args_early_return (hash : List Char → Nat → Bool) (w : World)
    (a : TArgs) (p : TProps)
    (h : a.hasConfig = false ∨ addrFalsy p.address = true ∨ a.hasConnector = false) :
    handleTxT hash w a p = (.ok ⟨false, none, some (plainErr invalidMsg)⟩, []) := by
  apply hT_invalid
  rcases h with h | h | h <;> simp [h]

/-- Witness for C9: a concrete call with a present connector and address but
no config returns the failure response with an empty trace. -/
theorem c9_invalid_args_witness :
    handleTxT (fun _ _ => false)
      ⟨.ok (), .ok 1, fun r => .ok (r + 1), fun h => .ok ⟨.success, h⟩⟩
      ⟨5, false, true, 5, true, none, none, none, none⟩
      ⟨some ('0' :: 'x' :: List.replicate 40 'a'), none⟩
      = (.ok ⟨false, none, some (plainErr invalidMsg)⟩, []) :=
  c9_invalid_args_early_return (fun _ _ => false)
    ⟨.ok (), .ok 1, fun r => .ok (r + 1), fun h => .ok ⟨.success, h⟩⟩
    ⟨5, false, true, 5, true, none, none, none, none⟩
    ⟨some ('0' :: 'x' :: List.replicate 40 'a'), none⟩
    (Or.inl rfl)

theorem tCatchT_fst_none (a : TArgs) (tr : List TxEvent) (e : Err)
    (hno : a.onTrySomethingElse = none) :
    (tCatchT a tr e).1 = .ok ⟨false, none, some e⟩ := by
  rcases hb : e.isBase with _ | _ <;> simp [tCatchT, hno, hb]

theorem c2_err_shape (e : Err) (m : Option TransactionReceipt) (hm : m = none) :
    (⟨false, none, some e⟩ : TTxResponse).receipt = m
    ∧ ((⟨false, none, some e⟩ : TTxResponse).isSuccessful = true ↔
        ∃ rec, (⟨false, none, some e⟩ : TTxResponse).receipt = some rec
          ∧ rec.status = RStatus.success)
    ∧ ((⟨false, none, some e⟩ : TTxResponse).error.isSome = true →
        (⟨false, none, some e⟩ : TTxResponse).receipt = none) := by
  subst hm
  refine ⟨rfl, by simp, fun _ => rfl⟩

theorem c2_ok_shape (rec : TransactionReceipt) (m : Option TransactionReceipt)
    (hm : m = some rec) :
    (⟨rec.status == .success, some rec, none⟩ : TTxResponse).receipt = m
    ∧ ((⟨rec.status == .success, some rec, none⟩ : TTxResponse).isSuccessful = true ↔
        ∃ rec2, (⟨rec.status == .success, some rec, none⟩ : TTxResponse).receipt = some rec2
          ∧ rec2.status = RStatus.success)
    ∧ ((⟨rec.status == .success, some rec, none⟩ : TTxResponse).error.isSome = true →
        (⟨rec.status == .success, some rec, none⟩ : TTxResponse).receipt = none) := by
  subst hm
  refine ⟨rfl, ?_, ?_⟩
  · simp
  · intro h
    simp at h

/-- C2 counterexample: the tools.transactions.ts `handleTx` with a configured
`onTrySomethingElse`.  Valid arguments, matching chain, the simulation throws
a `ContractFunctionExecutionError` (not a user rejection), and the fallback
resolves with a receipt-bearing success.  `handleTx` returns that response —
a receipt although `waitForTransactionReceipt` was never called (the only
operation performed is the simulation), refuting the claim that a returned
receipt comes exactly from a mined `waitForTransactionReceipt` result. -/
theorem c2_counterexample :
    (handleTxT (fun _ _ => false)
        ⟨.ok (), .error ⟨true, cfeeName, "boom".toList, "boom".toList⟩,
          fun _ => .error (plainErr []), fun _ => .error (plainErr [])⟩
        ⟨5, true, true, 5, true, some (.ok ⟨true, some ⟨.success, 9⟩, none⟩),
          none, none, none⟩
        ⟨some ('0' :: 'x' :: List.replicate 40 'a'), none⟩).1
      = .ok ⟨true, some ⟨.success, 9⟩, none⟩
    ∧ minedReceiptT
        ⟨.ok (), .error ⟨true, cfeeName, "boom".toList, "boom".toList⟩,
          fun _ => .error (plainErr []), fun _ => .error (plainErr [])⟩
        ⟨5, true, true, 5, true, some (.ok ⟨true, some ⟨.success, 9⟩, none⟩),
          none, none, none⟩
        ⟨some ('0' :: 'x' :: List.replicate 40 'a'), none⟩ = none
    ∧ opsOf (handleTxT (fun _ _ => false)
        ⟨.ok (), .error ⟨true, cfeeName, "boom".toList, "boom".toList⟩,
          fun _ => .error (plainErr []), fun _ => .error (plainErr [])⟩
        ⟨5, true, true, 5, true, some (.ok ⟨true, some ⟨.success, 9⟩, none⟩),
          none, none, none⟩
        ⟨some ('0' :: 'x' :: List.replicate 40 'a'), none⟩).2 = [.sim] := by
  refine ⟨by rfl, by rfl, by rfl⟩

/-- C2 (amended): for handleTx.ts's `handleTx`, every resolved `TTxResponse`
carries a receipt exactly when `waitForTransactionReceipt` returned a mined
receipt during the run, `isSuccessful` is true exactly when that receipt's
status is `'success'` (a reverted receipt is carried with `isSuccessful`
false), and every error response carries no receipt.  The same holds for the
tools.transactions.ts variant provided `onTrySomethingElse` is not
configured — with it, the fallback's response is returned verbatim and may
carry a receipt that did not come from this run's
`waitForTransactionReceipt` (see the counterexample). -/
theorem c2_receipt_iff_amended (w : World) (a : HArgs)
    (hash : List Char → Nat → Bool) (w2 : World) (a2 : TArgs) (p2 : TProps)
    (resp resp2 : TTxResponse) :
    ((handleTxH w a).1 = .ok resp →
      resp.receipt = minedReceiptH w a
      ∧ (resp.isSuccessful = true ↔
          ∃ rec, resp.receipt = some rec ∧ rec.status = RStatus.success)
      ∧ (resp.error.isSome = true → resp.receipt = none))
    ∧ (a2.onTrySomethingElse = none →
       (handleTxT hash w2 a2 p2).1 = .ok resp2 →
      resp2.receipt = minedReceiptT w2 a2 p2
      ∧ (resp2.isSuccessful = true ↔
          ∃ rec, resp2.receipt = some rec ∧ rec.status = RStatus.success)
      ∧ (resp2.error.isSome = true → resp2.receipt = none)) := by
  constructor
  · intro hok
    by_cases hcfg : (a.configChainId == a.chainID) = true
    · rw [hH_noswitch w a hcfg, withFinally_fst] at hok
      rcases hsim : w.simulateResult with e | r
      · rw [hTryH_simerr w a _ e hsim, hCatchH_fst] at hok
        obtain rfl : resp = ⟨false, none, some e⟩ := (Except.ok.inj hok).symm
        exact c2_err_shape e _ (by simp [minedReceiptH, bne, hcfg, hsim])
      · rcases hw : w.writeResult r with e | txh
        · rw [hTryH_writeerr w a _ r e hsim hw, hCatchH_fst] at hok
          obtain rfl : resp = ⟨false, none, some e⟩ := (Except.ok.inj hok).symm
          exact c2_err_shape e _ (by simp [minedReceiptH, bne, hcfg, hsim, hw])
        · rcases hwt : w.waitResult txh with e | rec
          · rw [hTryH_waiterr w a _ r txh e hsim hw hwt, hCatchH_fst] at hok
            obtain rfl : resp = ⟨false, none, some e⟩ := (Except.ok.inj hok).symm
            exact c2_err_shape e _
              (by simp [minedReceiptH, bne, hcfg, hsim, hw, hwt, Except.toOption])
          · rw [hTryH_ok w a _ r txh rec hsim hw hwt] at hok
            obtain rfl : resp = ⟨rec.status == .success, some rec, none⟩ :=
              (Except.ok.inj hok).symm
            exact c2_ok_shape rec _
              (by simp [minedReceiptH, bne, hcfg, hsim, hw, hwt, Except.toOption])
    · have hcfg2 : (a.configChainId == a.chainID) = false := by simpa using hcfg
      rcases hs : w.switchResult with e | u
      · rw [hH_switch_err w a e hcfg2 hs] at hok
        obtain rfl : resp = ⟨false, none, some e⟩ := (Except.ok.inj hok).symm
        exact c2_err_shape e _ (by simp [minedReceiptH, bne, hcfg2, hs])
      · cases u
        rw [hH_switch_ok w a hcfg2 hs, withFinally_fst] at hok
        rcases hsim : w.simulateResult with e | r
        · rw [hTryH_simerr w a _ e hsim, hCatchH_fst] at hok
          obtain rfl : resp = ⟨false, none, some e⟩ := (Except.ok.inj hok).symm
          exact c2_err_shape e _ (by simp [minedReceiptH, bne, hcfg2, hs, hsim])
        · rcases hw : w.writeResult r with e | txh
          · rw [hTryH_writeerr w a _ r e hsim hw, hCatchH_fst] at hok
            obtain rfl : resp = ⟨false, none, some e⟩ := (Except.ok.inj hok).symm
            exact c2_err_shape e _ (by simp [minedReceiptH, bne, hcfg2, hs, hsim, hw])
          · rcases hwt : w.waitResult txh with e | rec
            · rw [hTryH_waiterr w a _ r txh e hsim hw hwt, hCatchH_fst] at hok
              obtain rfl : resp = ⟨false, none, some e⟩ := (Except.ok.inj hok).symm
              exact c2_err_shape e _
                (by simp [minedReceiptH, bne, hcfg2, hs, hsim, hw, hwt, Except.toOption])
            · rw [hTryH_ok w a _ r txh rec hsim hw hwt] at hok
              obtain rfl : resp = ⟨rec.status == .success, some rec, none⟩ :=
                (Except.ok.inj hok).symm
              exact c2_ok_shape rec _
                (by simp [minedReceiptH, bne, hcfg2, hs, hsim, hw, hwt, Except.toOption])
  · intro hno hok
    by_cases hval : (!a2.hasConfig || addrFalsy p2.address || !a2.hasConnector) = true
    · rw [hT_invalid hash w2 a2 p2 hval] at hok
      obtain rfl : resp2 = ⟨false, none, some (plainErr invalidMsg)⟩ :=
        (Except.ok.inj hok).symm
      exact c2_err_shape _ _ (by simp [minedReceiptT, hval])
    · have hval2 : (!a2.hasConfig || addrFalsy p2.address || !a2.hasConnector) = false := by
        simpa using hval
      by_cases heq : (a2.connectorChainId == a2.chainID) = true
      · rw [hT_noswitch hash w2 a2 p2 hval2 heq] at hok
        rcases hA : assertAddressE hash p2.address contractAddressName with e | u
        · rw [tAssertTryT_addrfail hash w2 a2 p2 _ _ e hA] at hok
          exact absurd hok (by simp)
        · rw [tAssertTryT_ok hash w2 a2 p2 _ u hA heq, withFinally_fst] at hok
          rcases hsim : w2.simulateResult with e | r
          · rw [tTryT_simerr w2 a2 _ e hsim, tCatchT_fst_none a2 _ e hno] at hok
            obtain rfl : resp2 = ⟨false, none, some e⟩ := (Except.ok.inj hok).symm
            exact c2_err_shape e _ (by simp [minedReceiptT, hval2, bne, heq, hsim])
          · rcases hw : w2.writeResult r with e | txh
            · rw [tTryT_writeerr w2 a2 _ r e hsim hw, tCatchT_fst_none a2 _ e hno] at hok
              obtain rfl : resp2 = ⟨false, none, some e⟩ := (Except.ok.inj hok).symm
              exact c2_err_shape e _ (by simp [minedReceiptT, hval2, bne, heq, hsim, hw])
            · rcases hwt : w2.waitResult txh with e | rec
              · rw [tTryT_waiterr w2 a2 _ r txh e hsim hw hwt,
                  tCatchT_fst_none a2 _ e hno] at hok
                obtain rfl : resp2 = ⟨false, none, some e⟩ := (Except.ok.inj hok).symm
                exact c2_err_shape e _
                  (by simp [minedReceiptT, hval2, bne, heq, hsim, hw, hwt, Except.toOption])
              · rw [tTryT_ok w2 a2 _ r txh rec hsim hw hwt] at hok
                obtain rfl : resp2 = ⟨rec.status == .success, some rec, none⟩ :=
                  (Except.ok.inj hok).symm
                exact c2_ok_shape rec _
                  (by simp [minedReceiptT, hval2, bne, heq, hsim, hw, hwt, Except.toOption])
      · have hne : (a2.connectorChainId == a2.chainID) = false := by simpa using heq
        rcases hs : w2.switchResult with e | u
        · rw [hT_switch_err hash w2 a2 p2 e hval2 hne hs] at hok
          obtain rfl : resp2 = ⟨false, none, some e⟩ := (Except.ok.inj hok).symm
          exact c2_err_shape e _ (by simp [minedReceiptT, hval2, bne, hne])
        · cases u
          obtain ⟨e, he⟩ := hT_switch_ok hash w2 a2 p2 hval2 hne (by rw [hs])
          rw [he] at hok
          exact absurd hok (by simp)

/-- Witness for C2: a concrete fully successful run of handleTx.ts's
`handleTx` resolves with the receipt returned by
`waitForTransactionReceipt`, `isSuccessful` true, and no error. -/
theorem c2_receipt_iff_witness :
    (⟨true, some ⟨RStatus.success, 2⟩, none⟩ : TTxResponse).receipt
      = minedReceiptH ⟨.ok (), .ok 1, fun r => .ok (r + 1), fun h => .ok ⟨.success, h⟩⟩
          ⟨5, 5, true, none, none, none⟩
    ∧ ((⟨true, some ⟨RStatus.success, 2⟩, none⟩ : TTxResponse).isSuccessful = true ↔
        ∃ rec, (⟨true, some ⟨RStatus.success, 2⟩, none⟩ : TTxResponse).receipt = some rec
          ∧ rec.status = RStatus.success)
    ∧ ((⟨true, some ⟨RStatus.success, 2⟩, none⟩ : TTxResponse).error.isSome = true →
        (⟨true, some ⟨RStatus.success, 2⟩, none⟩ : TTxResponse).receipt = none) :=
  (c2_receipt_iff_amended
    ⟨.ok (), .ok 1, fun r => .ok (r + 1), fun h => .ok ⟨.success, h⟩⟩
    ⟨5, 5, true, none, none, none⟩
    (fun _ _ => false)
    ⟨.ok (), .ok 1, fun r => .ok (r + 1), fun h => .ok ⟨.success, h⟩⟩
    ⟨5, true, true, 5, true, none, none, none, none⟩
    ⟨none, none⟩
    ⟨true, some ⟨RStatus.success, 2⟩, none⟩
    ⟨false, none, none⟩).1 (by rfl)
